import Mathlib

/-!
# Verification of the ZapGrpc connection/subscription lifecycle manager

Shallow embedding of `src/services/grpc/grpc.js` (class `ZapGrpc`): the
connection state (options, transport handle, service registry) and the
subscription subsystem (subscription table, stream handles, event listeners,
event forwarding, promise resolution, and the sync-gated channel-graph
subscription policy).

JavaScript objects used as key/value tables are embedded as insertion-ordered
association lists (`Object.keys` order is insertion order; `delete obj[k]`
removes the entry; `obj[k] = v` overwrites in place).  Stream handles and
promises are identified by freshly allocated natural numbers.  `undefined`
JavaScript values are embedded as `Option.none`.
-/

namespace ZapGrpc

/-! ## Association-list operations (JS object semantics) -/

/-- Lookup in an insertion-ordered association list (`obj[k]`),
`none` meaning the JS value `undefined`. -/
def lookupKey (t : List (String × Nat)) (k : String) : Option Nat :=
  (t.find? (fun e => e.1 = k)).map (·.2)

/-- `obj[k] = v`: overwrite in place when the key exists, append otherwise. -/
def setKey : List (String × Nat) → String → Nat → List (String × Nat)
  | [], k, v => [(k, v)]
  | e :: t, k, v => if e.1 = k then (k, v) :: t else e :: setKey t k v

/-- `delete obj[k]`: remove every entry whose key is `k` (a no-op when the key
is absent; deleting an absent key raises no error in JS). -/
def delKey (t : List (String × Nat)) (k : String) : List (String × Nat) :=
  t.filter (fun e => e.1 ≠ k)

/-- First-occurrence deduplication with an accumulator of already-seen
elements. -/
def uniqFirstAux (seen : List String) : List String → List String
  | [] => []
  | x :: xs =>
    if seen.contains x then uniqFirstAux seen xs
    else x :: uniqFirstAux (x :: seen) xs

/-- First-occurrence deduplication, as `lodash.uniq` does it. -/
def uniqFirst (l : List String) : List String := uniqFirstAux [] l

/-- `lodash.intersection(xs, ys)`: the deduplicated elements of `xs` that also
occur in `ys`, in the order of `xs`. -/
def inter (xs ys : List String) : List String :=
  uniqFirst (xs.filter (fun x => ys.contains x))

/-! ## Connection-level model -/

/-- Wallet connection options as consumed by `connect` / `getConnectionSettings`
(`id`, `type`, `host`, `cert`, `macaroon`, `protoDir`). -/
structure ConnOptions where
  id : String
  type : String
  host : String
  cert : String
  macaroon : String
  protoDir : String
deriving DecidableEq, Repr

/-- The `this.options = {}` initial shape of `INITIAL_STATE` (destructured
fields read as `undefined`; embedded as empty strings, which no claim reads). -/
def emptyOptions : ConnOptions :=
  { id := "", type := "", host := "", cert := "", macaroon := "", protoDir := "" }

/-- The `LndGrpc` transport handle: its finite-state-machine `state` string
(`"ready"` is the disconnected/initial phase) and whether the machine currently
accepts a `disconnect` transition (`grpc.can('disconnect')`). -/
structure LndGrpcHandle where
  state : String
  canDisconnect : Bool
deriving DecidableEq, Repr

/-- Connection settings produced by `getConnectionSettings`.  `useMacaroon`
is an `Option Bool` because the JS expression can evaluate to `undefined`. -/
structure ConnSettings where
  host : String
  cert : String
  macaroon : String
  waitForMacaroon : Bool
  waitForCert : Bool
  useMacaroon : Option Bool
  protoDir : String
deriving DecidableEq, Repr

/-- JS `a && b` for `a` a possibly-`undefined` boolean and `b` a boolean:
`undefined && b` short-circuits to `undefined`, `false && b` to `false`,
`true && b` evaluates `b`. -/
def jsAnd (a : Option Bool) (b : Bool) : Option Bool :=
  match a with
  | none => none
  | some false => some false
  | some true => some b

/-- Connection-level fields of a `ZapGrpc` instance: the three
`INITIAL_STATE` registries (`options`, `services`, `subscriptions`), the
transport handle `grpc` (absent from `INITIAL_STATE`), and the instance
field `useMacaroon`, which is read by `getConnectionSettings` but assigned
nowhere in the class (so it stays `undefined`). -/
structure ZapModel where
  options : ConnOptions
  services : Bool
  subscriptions : List (String × Nat)
  grpc : Option LndGrpcHandle
  useMacaroon : Option Bool
deriving DecidableEq, Repr

/-- A freshly constructed `ZapGrpc` instance: `Object.assign(this,
ZapGrpc.INITIAL_STATE)` with no `grpc` field and no `useMacaroon` field. -/
def initModel : ZapModel :=
  { options := emptyOptions
    services := false
    subscriptions := []
    grpc := none
    useMacaroon := none }

/-- `getConnectionSettings()`: destructures `this.options`; `useMacaroon`
is `this.useMacaroon && id !== 'tmp'`; `waitForMacaroon` and `waitForCert`
are `type === 'local'`. -/
def getConnectionSettings (m : ZapModel) : ConnSettings :=
  { host := m.options.host
    cert := m.options.cert
    macaroon := m.options.macaroon
    waitForMacaroon := m.options.type = "local"
    waitForCert := m.options.type = "local"
    useMacaroon := jsAnd m.useMacaroon (m.options.id ≠ "tmp")
    protoDir := m.options.protoDir }

/-- The guard of `connect`'s invariant check:
`this.grpc && this.grpc.state !== 'ready'`. -/
def alreadyConnected (m : ZapModel) : Bool :=
  match m.grpc with
  | some g => g.state != "ready"
  | none => false

/-- `connect(options)`: throws "Can not connect (already connected)" when
`this.grpc` exists and its state is not `'ready'`; otherwise stores the
options, builds a fresh `LndGrpc` transport from `getConnectionSettings()`
and installs the service registry.  The freshly built transport starts in
the `'ready'` phase before its own async connect sequence runs. -/
def connect (m : ZapModel) (opts : ConnOptions) : Except String ZapModel :=
  if alreadyConnected m then
    .error "Can not connect (already connected)"
  else
    .ok { m with
      options := opts
      grpc := some { state := "ready", canDisconnect := false }
      services := true }

/-- `Object.assign(this, ZapGrpc.INITIAL_STATE)`: resets exactly `options`,
`services` and `subscriptions`; `INITIAL_STATE` has no `grpc` key and no
`useMacaroon` key, so those fields keep their values. -/
def resetState (m : ZapModel) : ZapModel :=
  { m with options := emptyOptions, services := false, subscriptions := [] }

/-- `disconnect(...args)`: when `this.grpc` exists and `can('disconnect')`,
awaits the graceful transport teardown — if that await throws
(`teardownFails = true`), the async function rejects at once and nothing
after the `await` runs (no listener removal, no state reset); otherwise the
grpc event listeners are removed and the state is reset.  Returns the
instance state paired with `true` when the call rejected. -/
def disconnect (m : ZapModel) (teardownFails : Bool) : ZapModel × Bool :=
  match m.grpc with
  | none => (resetState m, false)
  | some g =>
    if g.canDisconnect then
      if teardownFails then (m, true)
      else (resetState m, false)
    else (resetState m, false)

/-! ## Subscription subsystem model -/

/-- The fixed `ZapGrpc.SUBSCRIPTIONS` map, exactly as written in the source:
note that the key `transactions` is bound to `subscribeChannelGraph` and the
key `channelgraph` to `subscribeTransactions`. -/
def SUBSCRIPTIONS : List (String × String) :=
  [("invoices", "subscribeInvoices"),
   ("transactions", "subscribeChannelGraph"),
   ("channelgraph", "subscribeTransactions"),
   ("info", "subscribeGetInfo")]

/-- `Object.keys(ZapGrpc.SUBSCRIPTIONS)`. -/
def allSubKeys : List String := SUBSCRIPTIONS.map (·.1)

/-- `ZapGrpc.SUBSCRIPTIONS[key]` (the remote streaming-method name). -/
def subMethod (k : String) : String :=
  ((SUBSCRIPTIONS.find? (fun e => e.1 = k)).map (·.2)).getD ""

/-- The gRPC status code `CANCELLED` from `@grpc/grpc-js`. -/
def CANCELLED : Nat := 1

/-- A listener registered with `.on` on a stream handle.  The closures in the
source capture the subscription `key` (and, for the listeners registered by
`cancelSubscription`, the promise's `resolve`), never the handle itself:
* `subEnd h k` — `subscribe`'s `'end'` listener: `delete this.subscriptions[k]`;
* `subStatus h k` — `subscribe`'s `'status'` listener: on code `CANCELLED`,
  `delete this.subscriptions[k]`;
* `cancelStatus h k p` — `cancelSubscription`'s `'status'` listener: on code
  `CANCELLED`, `delete this.subscriptions[k]` then `resolve` promise `p`;
* `cancelEnd h k p` — `cancelSubscription`'s `'end'` listener:
  `delete this.subscriptions[k]` then `resolve` promise `p`. -/
inductive Listener where
  | subEnd (h : Nat) (k : String)
  | subStatus (h : Nat) (k : String)
  | cancelStatus (h : Nat) (k : String) (p : Nat)
  | cancelEnd (h : Nat) (k : String) (p : Nat)
deriving DecidableEq, Repr

/-- The handle a listener is attached to. -/
def Listener.handle : Listener → Nat
  | .subEnd h _ => h
  | .subStatus h _ => h
  | .cancelStatus h _ _ => h
  | .cancelEnd h _ _ => h

/-- The subscription key a listener's closure captured. -/
def Listener.key : Listener → String
  | .subEnd _ k => k
  | .subStatus _ k => k
  | .cancelStatus _ k _ => k
  | .cancelEnd _ k _ => k

/-- The promise a listener resolves, if any. -/
def Listener.promise : Listener → Option Nat
  | .subEnd _ _ => none
  | .subStatus _ _ => none
  | .cancelStatus _ _ p => some p
  | .cancelEnd _ _ p => some p

/-- Subscription-subsystem state of a `ZapGrpc` instance:
* `subscriptions` — the subscription table (key to stream-handle id);
* `forwarded` — the set of method names whose stream events are currently
  forwarded onto the instance's event bus (`forwardAll` / `unforwardAll`);
* `listeners` — all handlers registered with `.on` on stream handles, in
  registration order (the source never detaches them);
* `nextHandle` / `nextPromise` — fresh-id supplies for stream handles and
  cancellation promises;
* `resolved` — ids of resolved cancellation promises;
* `cancelRequested` — handles on which the transport-level `.cancel()` was
  issued;
* `warnings` — log of `grpcLog.warn` calls;
* `calls` — remote streaming methods invoked, in order;
* `gateInstalled` — whether `subscribeAll` installed its
  `'subscribeGetInfo.data'` bus listener;
* `gateTriggers` — how many times that listener's guarded body has run. -/
structure GState where
  subscriptions : List (String × Nat)
  forwarded : List String
  listeners : List Listener
  nextHandle : Nat
  nextPromise : Nat
  resolved : List Nat
  cancelRequested : List Nat
  warnings : List String
  calls : List String
  gateInstalled : Bool
  gateTriggers : Nat
deriving DecidableEq, Repr

/-- The subscription subsystem of a freshly constructed / freshly reset
instance: everything empty. -/
def initG : GState :=
  { subscriptions := []
    forwarded := []
    listeners := []
    nextHandle := 0
    nextPromise := 0
    resolved := []
    cancelRequested := []
    warnings := []
    calls := []
    gateInstalled := false
    gateTriggers := 0 }

/-- Modelled from the spec: `forwardAll(group, methodName, bus)` from the
helpers module (not under `src/`) attaches forwarding listeners for the
method's event namespace onto the shared bus, without double-registration. -/
def addForward (f : List String) (m : String) : List String :=
  if f.contains m then f else f ++ [m]

/-- Modelled from the spec: `unforwardAll(group, methodName)` detaches exactly
the listeners `forwardAll` attached for that method, leaving the other
forwarded methods untouched. -/
def removeForward (f : List String) (m : String) : List String :=
  f.filter (fun x => x ≠ m)

/-- The body of `subscribe`'s `forEach` for one targeted key: if the key is
already in the table, log a warning and return; otherwise invoke the
registry's streaming method (a fresh handle), insert it into the table,
attach the event forwarder, and register the `'end'` and `'status'`
listeners. -/
def subscribeKey (st : GState) (key : String) : GState :=
  match lookupKey st.subscriptions key with
  | some _ =>
    { st with warnings := st.warnings ++ ["already active: " ++ key] }
  | none =>
    let method := subMethod key
    let h := st.nextHandle
    { st with
      subscriptions := setKey st.subscriptions key h
      nextHandle := h + 1
      calls := st.calls ++ [method]
      forwarded := addForward st.forwarded method
      listeners := st.listeners ++ [.subEnd h key, .subStatus h key] }

/-- `subscribe`'s key resolution:
`streams && streams.length ? intersection(allSubKeys, streams) : allSubKeys`. -/
def subTargets (streams : List String) : List String :=
  if streams.isEmpty then allSubKeys else inter allSubKeys streams

/-- `subscribe(...streams)`: with no arguments the targets are all keys of
`SUBSCRIPTIONS`; otherwise `intersection(allSubKeys, streams)`.  Each target
is processed in order by `subscribeKey`. -/
def subscribe (st : GState) (streams : List String) : GState :=
  (subTargets streams).foldl subscribeKey st

/-- `cancelSubscription(key)`: when the key is not active, log a warning and
return (no promise).  Otherwise: detach the event forwarder for the key's
method, register the `'status'` and `'end'` listeners that remove the table
entry and resolve the returned promise, then issue the transport-level
`.cancel()` on the handle.  Returns the new state and, when a cancellation
was initiated, the handle and the fresh promise id. -/
def cancelSubscription (st : GState) (key : String) : GState × Option (Nat × Nat) :=
  match lookupKey st.subscriptions key with
  | none =>
    ({ st with warnings := st.warnings ++ ["not active: " ++ key] }, none)
  | some h =>
    let p := st.nextPromise
    ({ st with
        forwarded := removeForward st.forwarded (subMethod key)
        nextPromise := p + 1
        listeners := st.listeners ++ [.cancelStatus h key p, .cancelEnd h key p]
        cancelRequested := st.cancelRequested ++ [h] },
     some (h, p))

/-- `unsubscribe`'s key resolution: with no arguments the targets are all
keys of the current subscription table; otherwise
`intersection(activeKeys, streams)`. -/
def unsubTargets (st : GState) (streams : List String) : List String :=
  if streams.isEmpty then st.subscriptions.map (·.1)
  else inter (st.subscriptions.map (·.1)) streams

/-- `unsubscribe(...streams)` (see the doc comment above `unsubTargets` for
the key resolution): runs `cancelSubscription` on each target (the
synchronous parts run in order; the returned promises are joined with
`Promise.all`).  Returns the new state and one `(key, handle, promise)`
record per initiated cancellation. -/
def unsubscribe (st : GState) (streams : List String) :
    GState × List (String × Nat × Nat) :=
  (unsubTargets st streams).foldl
    (fun acc key =>
      match cancelSubscription acc.1 key with
      | (st2, some hp) => (st2, acc.2 ++ [(key, hp.1, hp.2)])
      | (st2, none) => (st2, acc.2))
    (st, [])

/-- Resolve a promise (resolving an already-resolved promise is a no-op). -/
def resolveP (r : List Nat) (p : Nat) : List Nat :=
  if r.contains p then r else r ++ [p]

/-- Run one registered handle listener on a delivered stream event.
`endEv = true` means the handle's `'end'` event; `endEv = false` means a
`'status'` event with the given code.  Listeners attached to other handles,
or to the other event name, do nothing. -/
def runListener (st : GState) (l : Listener) (h : Nat) (endEv : Bool)
    (code : Nat) : GState :=
  match l with
  | .subEnd h2 k =>
    if h2 = h ∧ endEv then
      { st with subscriptions := delKey st.subscriptions k }
    else st
  | .subStatus h2 k =>
    if h2 = h ∧ ¬endEv ∧ code = CANCELLED then
      { st with subscriptions := delKey st.subscriptions k }
    else st
  | .cancelStatus h2 k p =>
    if h2 = h ∧ ¬endEv ∧ code = CANCELLED then
      { st with
        subscriptions := delKey st.subscriptions k
        resolved := resolveP st.resolved p }
    else st
  | .cancelEnd h2 k p =>
    if h2 = h ∧ endEv then
      { st with
        subscriptions := delKey st.subscriptions k
        resolved := resolveP st.resolved p }
    else st

/-- Deliver a stream event on handle `h`: the emitter runs the listeners
registered at emit time, in registration order. -/
def deliverHandleEv (st : GState) (h : Nat) (endEv : Bool) (code : Nat) :
    GState :=
  st.listeners.foldl (fun s l => runListener s l h endEv code) st

/-- The listener `subscribeAll` installs on the instance bus for
`'subscribeGetInfo.data'`: when the payload's `synced_to_chain` is truthy and
`channelgraph` is not in the subscription table, subscribe to `channelgraph`
and unsubscribe from `info`.  The event reaches the bus only while the
`subscribeGetInfo` method is forwarded. -/
def deliverInfoData (st : GState) (synced : Bool) : GState :=
  if st.gateInstalled ∧ st.forwarded.contains "subscribeGetInfo" then
    if synced ∧ lookupKey st.subscriptions "channelgraph" = none then
      let st1 := { st with gateTriggers := st.gateTriggers + 1 }
      let st2 := subscribe st1 ["channelgraph"]
      (unsubscribe st2 ["info"]).1
    else st
  else st

/-- An externally observable event delivered to the instance:
a stream's `'end'` event, a stream's `'status'` event with a code, or a
data payload on the info stream (with its `synced_to_chain` flag). -/
inductive Ev where
  | endE (h : Nat)
  | statusE (h : Nat) (code : Nat)
  | infoData (synced : Bool)
deriving DecidableEq, Repr

/-- One event-delivery step. -/
def step (st : GState) (e : Ev) : GState :=
  match e with
  | .endE h => deliverHandleEv st h true 0
  | .statusE h code => deliverHandleEv st h false code
  | .infoData synced => deliverInfoData st synced

/-- Deliver a sequence of events in order. -/
def run (st : GState) (evs : List Ev) : GState :=
  evs.foldl step st

/-- An event physically possible in a given state: a data event on the info
stream can only occur while the info subscription's stream is live (its
table entry present — the entry is removed exactly when the stream
terminates); `'end'` and `'status'` events may arrive on any handle,
including detached ones. -/
def okEv (st : GState) (e : Ev) : Bool :=
  match e with
  | .infoData _ => (lookupKey st.subscriptions "info").isSome
  | _ => true

/-- A physically possible event sequence from a given state: each event is
possible in the state reached when it is delivered. -/
def validSeq : GState → List Ev → Bool
  | _, [] => true
  | st, e :: evs => okEv st e && validSeq (step st e) evs

/-- `subscribeAll()`: subscribe to `invoices`, `transactions` and `info`,
then install the sync-gating listener for `'subscribeGetInfo.data'`. -/
def subscribeAll (st : GState) : GState :=
  let st1 := subscribe st ["invoices", "transactions", "info"]
  { st1 with gateInstalled := true }

/-- Is this event a terminating signal for handle `h` (its `'end'` event, or
a `'status'` event with code `CANCELLED`)? -/
def isTermEv (h : Nat) : Ev → Bool
  | .endE h2 => h2 == h
  | .statusE h2 code => h2 == h && code == CANCELLED
  | .infoData _ => false

/-- Promise `p` is tracked for handle `h` and key `k`: `p` is allocated, and
every listener that would resolve `p` is one of the two that
`cancelSubscription` registered on handle `h` for key `k`. -/
def ptracked (st : GState) (h : Nat) (k : String) (p : Nat) : Prop :=
  p < st.nextPromise ∧
  ∀ l ∈ st.listeners, l.promise = some p → l.handle = h ∧ l.key = k

/-- State `s2` extends `s`'s listener registrations: the promise supply only
grows, and every listener of `s2` is either an old listener of `s` or a new
one whose promise (if any) was allocated at or after `s`'s supply mark. -/
def listenersExtend (s s2 : GState) : Prop :=
  s.nextPromise ≤ s2.nextPromise ∧
  ∀ l ∈ s2.listeners,
    l ∈ s.listeners ∨ ∀ q, l.promise = some q → s.nextPromise ≤ q

/-- Well-formedness of the fresh-promise supply: every promise id mentioned
by a listener or already resolved is below `nextPromise`.  Holds for every
state reachable from `initG`. -/
def promisesFresh (st : GState) : Bool :=
  st.listeners.all (fun l =>
    match l.promise with
    | some q => q < st.nextPromise
    | none => true)
  && st.resolved.all (fun q => q < st.nextPromise)

/-- The subscription-table keys are pairwise distinct (a JS object cannot
hold two entries with the same key). -/
def keysNodup (st : GState) : Prop :=
  (st.subscriptions.map (·.1)).Nodup

/-! ## Concrete inputs used by the witnesses and counterexamples -/

/-- A local wallet whose id is not `"tmp"`. -/
def localOptions : ConnOptions :=
  { id := "wallet-1"
    type := "local"
    host := "localhost:10009"
    cert := "/path/cert"
    macaroon := "/path/macaroon"
    protoDir := "/path/proto" }

/-- The designated temporary local wallet (`id = "tmp"`). -/
def tmpOptions : ConnOptions :=
  { localOptions with id := "tmp" }

/-- An instance with a live connection (`state = "active"`, graceful
disconnect available) and one active subscription. -/
def liveModel : ZapModel :=
  { options := localOptions
    services := true
    subscriptions := [("invoices", 0)]
    grpc := some { state := "active", canDisconnect := true }
    useMacaroon := none }

/-- Subscription state after the default subscribe-all entry point runs on a
freshly connected instance. -/
def subAllState : GState := subscribeAll initG

/-- Scenario for the detached-handle idempotence claim, step 1:
subscribe to `invoices` (stream handle 0). -/
def detachS1 : GState := subscribe initG ["invoices"]

/-- Step 2: handle 0's stream ends; the `invoices` entry is removed. -/
def detachS2 : GState := step detachS1 (.endE 0)

/-- Step 3: `invoices` is subscribed again (stream handle 1). -/
def detachS3 : GState := subscribe detachS2 ["invoices"]

/-- Step 4: the long-detached handle 0 delivers its `'status'` event with
code `CANCELLED` (streams emit `'status'` after `'end'`). -/
def detachS4 : GState := step detachS3 (.statusE 0 CANCELLED)

/-! ## Theorems -/

/-! ### Association-list and deduplication lemmas -/

theorem lookupKey_cons (e : String × Nat) (t : List (String × Nat)) (k : String) :
    lookupKey (e :: t) k = if e.1 = k then some e.2 else lookupKey t k := by
  unfold lookupKey
  by_cases h : e.1 = k <;> simp [List.find?, h]

theorem lookupKey_setKey_self (t : List (String × Nat)) (k : String) (v : Nat) :
    lookupKey (setKey t k v) k = some v := by
  induction t with
  | nil => simp [setKey, lookupKey_cons]
  | cons e t ih =>
    by_cases h : e.1 = k
    · simp [setKey, h, lookupKey_cons]
    · simp [setKey, h, lookupKey_cons, ih]

theorem contains_iff_mem (l : List String) (a : String) :
    l.contains a = true ↔ a ∈ l := List.elem_iff

theorem lookupKey_setKey_other (t : List (String × Nat)) (k k' : String) (v : Nat)
    (hne : k' ≠ k) :
    lookupKey (setKey t k v) k' = lookupKey t k' := by
  induction t with
  | nil => simp [setKey, lookupKey_cons, Ne.symm hne]
  | cons e t ih =>
    by_cases h : e.1 = k
    · simp [setKey, h, lookupKey_cons, Ne.symm hne]
    · simp [setKey, h, lookupKey_cons, ih]

theorem delKey_cons (e : String × Nat) (t : List (String × Nat)) (k : String) :
    delKey (e :: t) k = if e.1 = k then delKey t k else e :: delKey t k := by
  by_cases h : e.1 = k <;> simp [delKey, List.filter_cons, h]

theorem lookupKey_delKey_self (t : List (String × Nat)) (k : String) :
    lookupKey (delKey t k) k = none := by
  induction t with
  | nil => rfl
  | cons e t ih =>
    rw [delKey_cons]
    by_cases h : e.1 = k
    · simpa [h] using ih
    · simpa [h, lookupKey_cons] using ih

theorem lookupKey_delKey_other (t : List (String × Nat)) (k k' : String)
    (hne : k' ≠ k) :
    lookupKey (delKey t k) k' = lookupKey t k' := by
  induction t with
  | nil => rfl
  | cons e t ih =>
    rw [delKey_cons]
    by_cases h : e.1 = k
    · simp [h, lookupKey_cons, Ne.symm hne, ih]
    · simp [h, lookupKey_cons, ih]

theorem delKey_of_lookup_none (t : List (String × Nat)) (k : String)
    (h : lookupKey t k = none) : delKey t k = t := by
  induction t with
  | nil => rfl
  | cons e t ih =>
    rw [lookupKey_cons] at h
    rw [delKey_cons]
    by_cases he : e.1 = k
    · simp [he] at h
    · simp [he] at h
      simp [he, ih h]

theorem mem_keys_of_lookup_some (t : List (String × Nat)) (k : String) (v : Nat)
    (h : lookupKey t k = some v) : k ∈ t.map (·.1) := by
  induction t with
  | nil => simp [lookupKey] at h
  | cons e t ih =>
    rw [lookupKey_cons] at h
    rw [List.map_cons]
    by_cases he : e.1 = k
    · exact he ▸ List.mem_cons_self _ _
    · simp [he] at h
      exact List.mem_cons_of_mem _ (ih h)

theorem lookup_isSome_of_mem_keys (t : List (String × Nat)) (k : String)
    (h : k ∈ t.map (·.1)) : (lookupKey t k).isSome := by
  induction t with
  | nil => simp at h
  | cons e t ih =>
    rw [lookupKey_cons]
    by_cases he : e.1 = k
    · simp [he]
    · rw [List.map_cons, List.mem_cons] at h
      rcases h with h | h
      · exact absurd h.symm he
      · simp [he, ih h]

theorem setKey_keys_of_none (t : List (String × Nat)) (k : String) (v : Nat)
    (h : lookupKey t k = none) :
    (setKey t k v).map (·.1) = t.map (·.1) ++ [k] := by
  induction t with
  | nil => rfl
  | cons e t ih =>
    rw [lookupKey_cons] at h
    by_cases he : e.1 = k
    · simp [he] at h
    · simp [he] at h
      simp [setKey, he, ih h]

theorem delKey_keys (t : List (String × Nat)) (k : String) :
    (delKey t k).map (·.1) = (t.map (·.1)).filter (fun x => x ≠ k) := by
  induction t with
  | nil => rfl
  | cons e t ih =>
    by_cases he : e.1 = k <;> simp [delKey, List.filter, he, decide_eq_true_eq] at ih ⊢ <;>
      simpa [delKey] using ih

theorem uniqFirstAux_cons (seen : List String) (a : String) (l : List String) :
    uniqFirstAux seen (a :: l) =
      if a ∈ seen then uniqFirstAux seen l
      else a :: uniqFirstAux (a :: seen) l := by
  show (if seen.contains a then uniqFirstAux seen l
        else a :: uniqFirstAux (a :: seen) l) = _
  by_cases h : a ∈ seen
  · rw [if_pos ((contains_iff_mem seen a).mpr h), if_pos h]
  · rw [if_neg (fun hc => h ((contains_iff_mem seen a).mp hc)), if_neg h]

theorem uniqFirstAux_mem (l : List String) (seen : List String) (x : String) :
    x ∈ uniqFirstAux seen l ↔ x ∈ l ∧ x ∉ seen := by
  induction l generalizing seen with
  | nil => simp [uniqFirstAux]
  | cons a l ih =>
    rw [uniqFirstAux_cons]
    by_cases h : a ∈ seen
    · rw [if_pos h, ih]
      constructor
      · rintro ⟨hl, hs⟩
        exact ⟨List.mem_cons_of_mem _ hl, hs⟩
      · rintro ⟨hal, hs⟩
        rcases List.mem_cons.mp hal with rfl | hl
        · exact absurd h hs
        · exact ⟨hl, hs⟩
    · rw [if_neg h]
      simp only [List.mem_cons, ih, List.mem_cons, not_or]
      constructor
      · rintro (rfl | ⟨hl, hs⟩)
        · exact ⟨Or.inl rfl, h⟩
        · exact ⟨Or.inr hl, hs.2⟩
      · rintro ⟨rfl | hl, hs⟩
        · exact Or.inl rfl
        · by_cases hxa : x = a
          · exact Or.inl hxa
          · exact Or.inr ⟨hl, hxa, hs⟩

theorem uniqFirstAux_nodup (l : List String) (seen : List String) :
    (uniqFirstAux seen l).Nodup := by
  induction l generalizing seen with
  | nil => simp [uniqFirstAux]
  | cons a l ih =>
    rw [uniqFirstAux_cons]
    by_cases h : a ∈ seen
    · rw [if_pos h]
      exact ih seen
    · rw [if_neg h]
      refine List.nodup_cons.mpr ⟨fun hm => ?_, ih _⟩
      rw [uniqFirstAux_mem] at hm
      exact hm.2 (List.mem_cons_self _ _)

theorem uniqFirst_mem (l : List String) (x : String) :
    x ∈ uniqFirst l ↔ x ∈ l := by
  simp [uniqFirst, uniqFirstAux_mem]

theorem uniqFirst_nodup (l : List String) : (uniqFirst l).Nodup :=
  uniqFirstAux_nodup l []

theorem inter_mem (xs ys : List String) (x : String) :
    x ∈ inter xs ys ↔ x ∈ xs ∧ x ∈ ys := by
  simp [inter, uniqFirst_mem, List.mem_filter, contains_iff_mem]

theorem inter_nodup (xs ys : List String) : (inter xs ys).Nodup :=
  uniqFirst_nodup _

/-! ### `subscribe` lemmas (claim C1) -/

theorem subscribeKey_of_some (st : GState) (k : String) (h : Nat)
    (hs : lookupKey st.subscriptions k = some h) :
    subscribeKey st k
      = { st with warnings := st.warnings ++ ["already active: " ++ k] } := by
  unfold subscribeKey
  rw [hs]

theorem subscribeKey_of_none (st : GState) (k : String)
    (hs : lookupKey st.subscriptions k = none) :
    subscribeKey st k = { st with
      subscriptions := setKey st.subscriptions k st.nextHandle
      nextHandle := st.nextHandle + 1
      calls := st.calls ++ [subMethod k]
      forwarded := addForward st.forwarded (subMethod k)
      listeners := st.listeners
        ++ [.subEnd st.nextHandle k, .subStatus st.nextHandle k] } := by
  unfold subscribeKey
  rw [hs]

theorem subscribeKey_lookup_other (st : GState) (k k' : String) (hne : k' ≠ k) :
    lookupKey (subscribeKey st k).subscriptions k'
      = lookupKey st.subscriptions k' := by
  cases hs : lookupKey st.subscriptions k with
  | some h => rw [subscribeKey_of_some st k h hs]
  | none =>
    rw [subscribeKey_of_none st k hs]
    exact lookupKey_setKey_other _ _ _ _ hne

theorem subscribeKey_nextHandle_le (st : GState) (k : String) :
    st.nextHandle ≤ (subscribeKey st k).nextHandle := by
  cases hs : lookupKey st.subscriptions k with
  | some h => rw [subscribeKey_of_some st k h hs]
  | none =>
    rw [subscribeKey_of_none st k hs]
    exact Nat.le_succ _

theorem subscribeKey_warnings_mono (st : GState) (k : String) (w : String)
    (hw : w ∈ st.warnings) : w ∈ (subscribeKey st k).warnings := by
  cases hs : lookupKey st.subscriptions k with
  | some h =>
    rw [subscribeKey_of_some st k h hs]
    exact List.mem_append_left _ hw
  | none =>
    rw [subscribeKey_of_none st k hs]
    exact hw

theorem subscribeKey_keysNodup (st : GState) (k : String) (hnd : keysNodup st) :
    keysNodup (subscribeKey st k) := by
  cases hs : lookupKey st.subscriptions k with
  | some h =>
    rw [subscribeKey_of_some st k h hs]
    exact hnd
  | none =>
    rw [subscribeKey_of_none st k hs]
    unfold keysNodup at hnd ⊢
    rw [setKey_keys_of_none _ _ _ hs]
    refine List.Nodup.append hnd (List.nodup_singleton k) ?_
    intro a ha hb
    rw [List.mem_singleton] at hb
    subst hb
    have hsome := lookup_isSome_of_mem_keys _ _ ha
    rw [hs] at hsome
    simp at hsome

theorem foldSub_lookup_not_mem (ks : List String) (st : GState) (k : String)
    (hk : k ∉ ks) :
    lookupKey (ks.foldl subscribeKey st).subscriptions k
      = lookupKey st.subscriptions k := by
  induction ks generalizing st with
  | nil => rfl
  | cons a ks ih =>
    rw [List.mem_cons, not_or] at hk
    rw [List.foldl_cons, ih _ hk.2, subscribeKey_lookup_other _ _ _ hk.1]

theorem foldSub_nextHandle_le (ks : List String) (st : GState) :
    st.nextHandle ≤ (ks.foldl subscribeKey st).nextHandle := by
  induction ks generalizing st with
  | nil => exact Nat.le_refl _
  | cons a ks ih =>
    exact Nat.le_trans (subscribeKey_nextHandle_le st a) (ih _)

theorem foldSub_warnings_mono (ks : List String) (st : GState) (w : String)
    (hw : w ∈ st.warnings) : w ∈ (ks.foldl subscribeKey st).warnings := by
  induction ks generalizing st with
  | nil => exact hw
  | cons a ks ih =>
    exact ih _ (subscribeKey_warnings_mono st a w hw)

theorem foldSub_keysNodup (ks : List String) (st : GState) (hnd : keysNodup st) :
    keysNodup (ks.foldl subscribeKey st) := by
  induction ks generalizing st with
  | nil => exact hnd
  | cons a ks ih =>
    exact ih _ (subscribeKey_keysNodup st a hnd)

theorem foldSub_active (ks : List String) (st : GState) (k : String) (h : Nat)
    (hnd : ks.Nodup) (hk : k ∈ ks)
    (hs : lookupKey st.subscriptions k = some h) :
    lookupKey (ks.foldl subscribeKey st).subscriptions k = some h
    ∧ ("already active: " ++ k) ∈ (ks.foldl subscribeKey st).warnings := by
  induction ks generalizing st with
  | nil => simp at hk
  | cons a ks ih =>
    rw [List.nodup_cons] at hnd
    rw [List.foldl_cons]
    rcases List.mem_cons.mp hk with rfl | hk2
    · rw [subscribeKey_of_some st k h hs]
      refine ⟨?_, ?_⟩
      · rw [foldSub_lookup_not_mem ks _ k hnd.1]
        exact hs
      · exact foldSub_warnings_mono ks _ _
          (List.mem_append_right _ (List.mem_singleton_self _))
    · have hne : k ≠ a := fun hka => hnd.1 (hka ▸ hk2)
      have hs2 : lookupKey (subscribeKey st a).subscriptions k = some h := by
        rw [subscribeKey_lookup_other st a k hne]
        exact hs
      exact ih _ hnd.2 hk2 hs2

theorem foldSub_new (ks : List String) (st : GState) (k : String)
    (hnd : ks.Nodup) (hk : k ∈ ks)
    (hs : lookupKey st.subscriptions k = none) :
    ∃ h, lookupKey (ks.foldl subscribeKey st).subscriptions k = some h
      ∧ st.nextHandle ≤ h := by
  induction ks generalizing st with
  | nil => simp at hk
  | cons a ks ih =>
    rw [List.nodup_cons] at hnd
    rw [List.foldl_cons]
    rcases List.mem_cons.mp hk with rfl | hk2
    · refine ⟨st.nextHandle, ?_, Nat.le_refl _⟩
      rw [foldSub_lookup_not_mem ks _ k hnd.1, subscribeKey_of_none st k hs]
      exact lookupKey_setKey_self _ _ _
    · have hne : k ≠ a := fun hka => hnd.1 (hka ▸ hk2)
      have hs2 : lookupKey (subscribeKey st a).subscriptions k = none := by
        rw [subscribeKey_lookup_other st a k hne]
        exact hs
      obtain ⟨h2, hh, hle⟩ := ih _ hnd.2 hk2 hs2
      exact ⟨h2, hh, Nat.le_trans (subscribeKey_nextHandle_le st a) hle⟩

theorem count_keys_eq_one (t : List (String × Nat)) (k : String) (v : Nat)
    (hnd : (t.map (·.1)).Nodup) (hs : lookupKey t k = some v) :
    (t.map (·.1)).count k = 1 :=
  List.count_eq_one_of_mem hnd (mem_keys_of_lookup_some t k v hs)

theorem subTargets_mem (streams : List String) (k : String) :
    k ∈ subTargets streams ↔ k ∈ allSubKeys ∧ (streams = [] ∨ k ∈ streams) := by
  unfold subTargets
  cases streams with
  | nil => simp
  | cons a s => simp [inter_mem]

theorem subTargets_nodup (streams : List String) : (subTargets streams).Nodup := by
  unfold subTargets
  cases streams with
  | nil => decide
  | cons a s => exact inter_nodup _ _

/-! ### `cancelSubscription` / `unsubscribe` no-op lemmas (claim C7) -/

theorem cancelSubscription_of_none (st : GState) (k : String)
    (hs : lookupKey st.subscriptions k = none) :
    cancelSubscription st k
      = ({ st with warnings := st.warnings ++ ["not active: " ++ k] }, none) := by
  unfold cancelSubscription
  rw [hs]

theorem cancelSubscription_of_some (st : GState) (k : String) (h : Nat)
    (hs : lookupKey st.subscriptions k = some h) :
    cancelSubscription st k = ({ st with
      forwarded := removeForward st.forwarded (subMethod k)
      nextPromise := st.nextPromise + 1
      listeners := st.listeners
        ++ [.cancelStatus h k st.nextPromise, .cancelEnd h k st.nextPromise]
      cancelRequested := st.cancelRequested ++ [h] },
     some (h, st.nextPromise)) := by
  unfold cancelSubscription
  rw [hs]

theorem cancelSubscription_subscriptions (st : GState) (k : String) :
    (cancelSubscription st k).1.subscriptions = st.subscriptions := by
  cases hs : lookupKey st.subscriptions k with
  | none => rw [cancelSubscription_of_none st k hs]
  | some h => rw [cancelSubscription_of_some st k h hs]

theorem unsubFold_records (ks : List String) (st : GState)
    (acc : List (String × Nat × Nat))
    (hks : ∀ k ∈ ks, k ∈ st.subscriptions.map (·.1)) :
    ((ks.foldl
        (fun acc key =>
          match cancelSubscription acc.1 key with
          | (st2, some hp) => (st2, acc.2 ++ [(key, hp.1, hp.2)])
          | (st2, none) => (st2, acc.2))
        (st, acc)).2.map (·.1)) = acc.map (·.1) ++ ks := by
  induction ks generalizing st acc with
  | nil => simp
  | cons a ks ih =>
    rw [List.foldl_cons]
    have ha := hks a (List.mem_cons_self _ _)
    have hsome := lookup_isSome_of_mem_keys _ _ ha
    obtain ⟨h, hh⟩ := Option.isSome_iff_exists.mp hsome
    rw [cancelSubscription_of_some st a h hh]
    have hks2 : ∀ k ∈ ks, k ∈ st.subscriptions.map (·.1) :=
      fun k hk => hks k (List.mem_cons_of_mem _ hk)
    dsimp only
    refine (ih _ (acc ++ [(a, h, st.nextPromise)]) ?_).trans ?_
    · exact hks2
    · simp

theorem unsubTargets_sub_keys (st : GState) (streams : List String) :
    ∀ k ∈ unsubTargets st streams, k ∈ st.subscriptions.map (·.1) := by
  intro k hk
  unfold unsubTargets at hk
  cases streams with
  | nil => simpa using hk
  | cons a s => exact ((inter_mem _ _ _).mp hk).1

theorem unsubscribe_records (st : GState) (streams : List String) :
    (unsubscribe st streams).2.map (·.1) = unsubTargets st streams := by
  unfold unsubscribe
  simpa using
    unsubFold_records (unsubTargets st streams) st []
      (unsubTargets_sub_keys st streams)

/-- C7: cancelling an inactive key logs a warning and returns without raising
and without touching the subscription table (no cancellation promise is
created); a batch `unsubscribe` still initiates one cancellation for every
supplied active key, so the inactive key does not abort the batch. -/
theorem c7_cancel_inactive_noop (st : GState) (key : String)
    (hkey : lookupKey st.subscriptions key = none) :
    cancelSubscription st key
      = ({ st with warnings := st.warnings ++ ["not active: " ++ key] }, none)
    ∧ (cancelSubscription st key).1.subscriptions = st.subscriptions
    ∧ (∀ streams, (unsubscribe st streams).2.map (·.1) = unsubTargets st streams)
    ∧ (∀ streams k2, (lookupKey st.subscriptions k2).isSome → k2 ∈ streams →
        k2 ∈ (unsubscribe st streams).2.map (·.1)) := by
  refine ⟨cancelSubscription_of_none st key hkey,
    cancelSubscription_subscriptions st key,
    unsubscribe_records st, ?_⟩
  intro streams k2 hk2 hmem
  rw [unsubscribe_records st streams]
  unfold unsubTargets
  cases streams with
  | nil => simp at hmem
  | cons a s =>
    show k2 ∈ inter (st.subscriptions.map (·.1)) (a :: s)
    rw [inter_mem]
    refine ⟨?_, hmem⟩
    obtain ⟨v, hv⟩ := Option.isSome_iff_exists.mp hk2
    exact mem_keys_of_lookup_some _ _ _ hv

/-- Witness for C7: cancelling the inactive `info` key on an instance whose
only active key is `invoices` is a warning-only no-op, and a batch
`unsubscribe("info", "invoices")` still cancels `invoices`. -/
theorem c7_cancel_inactive_noop_witness :
    cancelSubscription detachS1 "info"
      = ({ detachS1 with
            warnings := detachS1.warnings ++ ["not active: " ++ "info"] }, none)
    ∧ "invoices" ∈ (unsubscribe detachS1 ["info", "invoices"]).2.map (·.1) :=
  ⟨(c7_cancel_inactive_noop detachS1 "info" (by decide)).1,
   (c7_cancel_inactive_noop detachS1 "info" (by decide)).2.2.2
     ["info", "invoices"] "invoices" (by decide) (by decide)⟩

/-! ### Detached-handle event lemmas (claim C8) -/

theorem runListener_subscriptions_of_none (s : GState) (l : Listener) (h : Nat)
    (endEv : Bool) (code : Nat) (k : String)
    (hnone : lookupKey s.subscriptions k = none)
    (hl : l.handle = h → l.key = k) :
    (runListener s l h endEv code).subscriptions = s.subscriptions := by
  cases l <;>
    (dsimp only [runListener]
     split
     · next hc =>
       have hk2 := hl hc.1
       subst hk2
       exact delKey_of_lookup_none _ _ hnone
     · rfl)

theorem foldListeners_subscriptions_of_none (ls : List Listener) (s : GState)
    (h : Nat) (endEv : Bool) (code : Nat) (k : String)
    (hnone : lookupKey s.subscriptions k = none)
    (hls : ∀ l ∈ ls, l.handle = h → l.key = k) :
    (ls.foldl (fun s2 l => runListener s2 l h endEv code) s).subscriptions
      = s.subscriptions := by
  induction ls generalizing s with
  | nil => rfl
  | cons l ls ih =>
    rw [List.foldl_cons]
    have h1 := runListener_subscriptions_of_none s l h endEv code k hnone
      (hls l (List.mem_cons_self _ _))
    have hnone2 : lookupKey (runListener s l h endEv code).subscriptions k
        = none := by
      rw [h1]
      exact hnone
    rw [ih _ hnone2 (fun l2 hl2 => hls l2 (List.mem_cons_of_mem _ hl2)), h1]

/-- C8 counterexample: after the `invoices` entry created by the first
subscribe (stream handle 0) is removed by its `'end'` event and the key is
re-subscribed (stream handle 1), a late `'status' CANCELLED` event from the
long-detached handle 0 deletes the NEW entry: the listeners capture the
subscription key, not the handle, so the event does change the subscription
table, contrary to the claim. -/
theorem c8_detached_handle_counterexample :
    detachS2.subscriptions = []
    ∧ lookupKey detachS3.subscriptions "invoices" = some 1
    ∧ detachS4.subscriptions = []
    ∧ detachS4.subscriptions ≠ detachS3.subscriptions := by
  refine ⟨?_, ?_, ?_, ?_⟩ <;> decide

/-- C8 amended: once a key's table entry has been removed AND no new entry
has since been created for that key (the key is absent from the table), a
subsequent `'end'` or `'status'` event delivered by a handle all of whose
listeners capture that key leaves the subscription table entirely unchanged
(the repeated `delete` is a harmless no-op and no other key's entry is
affected; the model is total, so no error can be raised). -/
theorem c8_detached_handle_amended (st : GState) (h : Nat) (k : String)
    (code : Nat)
    (hnone : lookupKey st.subscriptions k = none)
    (hls : ∀ l ∈ st.listeners, l.handle = h → l.key = k) :
    (step st (.endE h)).subscriptions = st.subscriptions
    ∧ (step st (.statusE h code)).subscriptions = st.subscriptions :=
  ⟨foldListeners_subscriptions_of_none st.listeners st h true 0 k hnone hls,
   foldListeners_subscriptions_of_none st.listeners st h false code k hnone hls⟩

/-- Witness for C8 amended: in the scenario state after removal (and before
any re-subscribe), the detached handle's late events leave the table
unchanged. -/
theorem c8_detached_handle_amended_witness :
    (step detachS2 (.endE 0)).subscriptions = detachS2.subscriptions
    ∧ (step detachS2 (.statusE 0 CANCELLED)).subscriptions
        = detachS2.subscriptions :=
  c8_detached_handle_amended detachS2 0 "invoices" CANCELLED (by decide)
    (by decide)

/-! ### Event-delivery and promise-resolution lemmas (claim C2) -/

theorem mem_resolveP (r : List Nat) (p q : Nat) :
    q ∈ resolveP r p ↔ q ∈ r ∨ q = p := by
  unfold resolveP
  by_cases hc : r.contains p
  · have hp : p ∈ r := List.elem_iff.mp hc
    rw [if_pos hc]
    constructor
    · exact Or.inl
    · rintro (hq | rfl)
      · exact hq
      · exact hp
  · rw [if_neg hc]
    simp

theorem runListener_frame (s : GState) (l : Listener) (h : Nat) (b : Bool)
    (c : Nat) :
    (runListener s l h b c).forwarded = s.forwarded
    ∧ (runListener s l h b c).listeners = s.listeners
    ∧ (runListener s l h b c).nextPromise = s.nextPromise
    ∧ (runListener s l h b c).nextHandle = s.nextHandle
    ∧ (runListener s l h b c).calls = s.calls
    ∧ (runListener s l h b c).warnings = s.warnings
    ∧ (runListener s l h b c).cancelRequested = s.cancelRequested
    ∧ (runListener s l h b c).gateInstalled = s.gateInstalled
    ∧ (runListener s l h b c).gateTriggers = s.gateTriggers := by
  cases l <;> (dsimp only [runListener]; split <;> simp)

theorem foldListeners_frame (ls : List Listener) (s : GState) (h : Nat)
    (b : Bool) (c : Nat) :
    ((ls.foldl (fun s2 l => runListener s2 l h b c) s)).forwarded = s.forwarded
    ∧ ((ls.foldl (fun s2 l => runListener s2 l h b c) s)).listeners = s.listeners
    ∧ ((ls.foldl (fun s2 l => runListener s2 l h b c) s)).nextPromise
        = s.nextPromise
    ∧ ((ls.foldl (fun s2 l => runListener s2 l h b c) s)).nextHandle
        = s.nextHandle
    ∧ ((ls.foldl (fun s2 l => runListener s2 l h b c) s)).calls = s.calls
    ∧ ((ls.foldl (fun s2 l => runListener s2 l h b c) s)).warnings = s.warnings
    ∧ ((ls.foldl (fun s2 l => runListener s2 l h b c) s)).cancelRequested
        = s.cancelRequested
    ∧ ((ls.foldl (fun s2 l => runListener s2 l h b c) s)).gateInstalled
        = s.gateInstalled
    ∧ ((ls.foldl (fun s2 l => runListener s2 l h b c) s)).gateTriggers
        = s.gateTriggers := by
  induction ls generalizing s with
  | nil => exact ⟨rfl, rfl, rfl, rfl, rfl, rfl, rfl, rfl, rfl⟩
  | cons l ls ih =>
    rw [List.foldl_cons]
    obtain ⟨f1, f2, f3, f4, f5, f6, f7, f8, f9⟩ := runListener_frame s l h b c
    obtain ⟨g1, g2, g3, g4, g5, g6, g7, g8, g9⟩ := ih (runListener s l h b c)
    exact ⟨g1.trans f1, g2.trans f2, g3.trans f3, g4.trans f4, g5.trans f5,
      g6.trans f6, g7.trans f7, g8.trans f8, g9.trans f9⟩

theorem runListener_resolve (s : GState) (l : Listener) (h' : Nat) (b : Bool)
    (c : Nat) (p : Nat) (hnr : p ∉ s.resolved)
    (hres : p ∈ (runListener s l h' b c).resolved) :
    l.promise = some p ∧ l.handle = h' ∧ (b = true ∨ c = CANCELLED)
    ∧ (runListener s l h' b c).subscriptions = delKey s.subscriptions l.key := by
  cases l with
  | subEnd h2 k2 =>
    dsimp only [runListener] at hres
    revert hres
    split <;> (intro hres; exact absurd hres hnr)
  | subStatus h2 k2 =>
    dsimp only [runListener] at hres
    revert hres
    split <;> (intro hres; exact absurd hres hnr)
  | cancelStatus h2 k2 p2 =>
    dsimp only [runListener] at hres ⊢
    revert hres
    split
    · next hcnd =>
      intro hres
      have hp : p = p2 := by
        rcases (mem_resolveP _ _ _).mp hres with hq | hq
        · exact absurd hq hnr
        · exact hq
      subst hp
      exact ⟨rfl, hcnd.1, Or.inr hcnd.2.2, rfl⟩
    · intro hres
      exact absurd hres hnr
  | cancelEnd h2 k2 p2 =>
    dsimp only [runListener] at hres ⊢
    revert hres
    split
    · next hcnd =>
      intro hres
      have hp : p = p2 := by
        rcases (mem_resolveP _ _ _).mp hres with hq | hq
        · exact absurd hq hnr
        · exact hq
      subst hp
      exact ⟨rfl, hcnd.1, Or.inl hcnd.2, rfl⟩
    · intro hres
      exact absurd hres hnr

theorem lookupKey_delKey_none (t : List (String × Nat)) (k k' : String)
    (h : lookupKey t k = none) : lookupKey (delKey t k') k = none := by
  by_cases hk : k = k'
  · subst hk
    exact lookupKey_delKey_self t k
  · rw [lookupKey_delKey_other t k' k hk]
    exact h

theorem runListener_lookup_none (s : GState) (l : Listener) (h : Nat) (b : Bool)
    (c : Nat) (k : String) (hk : lookupKey s.subscriptions k = none) :
    lookupKey (runListener s l h b c).subscriptions k = none := by
  cases l <;>
    (dsimp only [runListener]
     split
     · exact lookupKey_delKey_none _ _ _ hk
     · exact hk)

theorem foldListeners_lookup_none (ls : List Listener) (s : GState) (h : Nat)
    (b : Bool) (c : Nat) (k : String)
    (hk : lookupKey s.subscriptions k = none) :
    lookupKey ((ls.foldl (fun s2 l => runListener s2 l h b c) s)).subscriptions k
      = none := by
  induction ls generalizing s with
  | nil => exact hk
  | cons l ls ih =>
    rw [List.foldl_cons]
    exact ih _ (runListener_lookup_none s l h b c k hk)

theorem foldListeners_resolve (ls : List Listener) (h' : Nat) (b : Bool)
    (c : Nat) (h : Nat) (k : String) (p : Nat) :
    ∀ s : GState,
      (∀ l ∈ ls, l.promise = some p → l.handle = h ∧ l.key = k) →
      p ∉ s.resolved →
      p ∈ ((ls.foldl (fun s2 l => runListener s2 l h' b c) s)).resolved →
      (h' = h ∧ (b = true ∨ c = CANCELLED))
      ∧ lookupKey
          ((ls.foldl (fun s2 l => runListener s2 l h' b c) s)).subscriptions k
        = none := by
  induction ls with
  | nil =>
    intro s _ hnr hres
    exact absurd hres hnr
  | cons l ls ih =>
    intro s hls hnr hres
    rw [List.foldl_cons] at hres ⊢
    by_cases hmem : p ∈ (runListener s l h' b c).resolved
    · obtain ⟨hpr, hh, hbc, hsub⟩ := runListener_resolve s l h' b c p hnr hmem
      obtain ⟨hlh, hlk⟩ := hls l (List.mem_cons_self _ _) hpr
      refine ⟨⟨hh.symm.trans hlh, hbc⟩, ?_⟩
      have h0 : lookupKey (runListener s l h' b c).subscriptions k = none := by
        rw [hsub, hlk]
        exact lookupKey_delKey_self _ _
      exact foldListeners_lookup_none ls _ h' b c k h0
    · exact ih _ (fun l2 h2 => hls l2 (List.mem_cons_of_mem _ h2)) hmem hres

theorem listenersExtend_refl (s : GState) : listenersExtend s s :=
  ⟨Nat.le_refl _, fun _l hl => Or.inl hl⟩

theorem listenersExtend_trans (s1 s2 s3 : GState)
    (h12 : listenersExtend s1 s2) (h23 : listenersExtend s2 s3) :
    listenersExtend s1 s3 := by
  refine ⟨Nat.le_trans h12.1 h23.1, fun l hl => ?_⟩
  rcases h23.2 l hl with hl2 | hq
  · rcases h12.2 l hl2 with hl1 | hq
    · exact Or.inl hl1
    · exact Or.inr hq
  · exact Or.inr (fun q hq2 => Nat.le_trans h12.1 (hq q hq2))

theorem listenersExtend_of_eq (s s2 : GState)
    (hl : s2.listeners = s.listeners) (hp : s.nextPromise = s2.nextPromise) :
    listenersExtend s s2 :=
  ⟨Nat.le_of_eq hp, fun _l hm => Or.inl (hl ▸ hm)⟩

theorem subscribeKey_extend (s : GState) (a : String) :
    listenersExtend s (subscribeKey s a) := by
  cases hs : lookupKey s.subscriptions a with
  | some h =>
    rw [subscribeKey_of_some s a h hs]
    exact listenersExtend_of_eq _ _ rfl rfl
  | none =>
    rw [subscribeKey_of_none s a hs]
    refine ⟨Nat.le_refl _, fun l hl => ?_⟩
    replace hl : l ∈ s.listeners
        ++ [Listener.subEnd s.nextHandle a, Listener.subStatus s.nextHandle a] :=
      hl
    rw [List.mem_append] at hl
    rcases hl with hl | hl
    · exact Or.inl hl
    · right
      intro q hq
      rcases List.mem_cons.mp hl with rfl | hl2
      · simp [Listener.promise] at hq
      · rcases List.mem_cons.mp hl2 with rfl | hl3
        · simp [Listener.promise] at hq
        · simp at hl3

theorem foldSub_extend (ks : List String) (s : GState) :
    listenersExtend s (ks.foldl subscribeKey s) := by
  induction ks generalizing s with
  | nil => exact listenersExtend_refl s
  | cons a ks ih =>
    rw [List.foldl_cons]
    exact listenersExtend_trans _ _ _ (subscribeKey_extend s a) (ih _)

theorem cancelSubscription_extend (s : GState) (a : String) :
    listenersExtend s (cancelSubscription s a).1 := by
  cases hs : lookupKey s.subscriptions a with
  | none =>
    rw [cancelSubscription_of_none s a hs]
    exact listenersExtend_of_eq _ _ rfl rfl
  | some h =>
    rw [cancelSubscription_of_some s a h hs]
    refine ⟨Nat.le_succ _, fun l hl => ?_⟩
    replace hl : l ∈ s.listeners
        ++ [Listener.cancelStatus h a s.nextPromise,
            Listener.cancelEnd h a s.nextPromise] := hl
    rw [List.mem_append] at hl
    rcases hl with hl | hl
    · exact Or.inl hl
    · right
      intro q hq
      rcases List.mem_cons.mp hl with rfl | hl2
      · simp [Listener.promise] at hq
        omega
      · rcases List.mem_cons.mp hl2 with rfl | hl3
        · simp [Listener.promise] at hq
          omega
        · simp at hl3

theorem unsubFold_extend (ks : List String) :
    ∀ (s : GState) (acc : List (String × Nat × Nat)),
      listenersExtend s
        ((ks.foldl
          (fun acc key =>
            match cancelSubscription acc.1 key with
            | (st2, some hp) => (st2, acc.2 ++ [(key, hp.1, hp.2)])
            | (st2, none) => (st2, acc.2))
          (s, acc)).1) := by
  induction ks with
  | nil =>
    intro s acc
    exact listenersExtend_refl s
  | cons a ks ih =>
    intro s acc
    rw [List.foldl_cons]
    have hx := cancelSubscription_extend s a
    rcases hcs : cancelSubscription s a with ⟨s2, r⟩
    rw [hcs] at hx
    cases r with
    | some hp => exact listenersExtend_trans _ _ _ hx (ih s2 _)
    | none => exact listenersExtend_trans _ _ _ hx (ih s2 _)

theorem unsubscribe_extend (s : GState) (streams : List String) :
    listenersExtend s (unsubscribe s streams).1 :=
  unsubFold_extend (unsubTargets s streams) s []

theorem deliverInfoData_extend (st : GState) (sy : Bool) :
    listenersExtend st (deliverInfoData st sy) := by
  unfold deliverInfoData
  split
  · split
    · refine listenersExtend_trans _ _ _ (listenersExtend_of_eq _
        { st with gateTriggers := st.gateTriggers + 1 } rfl rfl)
        (listenersExtend_trans _ _ _ (foldSub_extend _ _)
          (unsubscribe_extend _ _))
    · exact listenersExtend_refl st
  · exact listenersExtend_refl st

theorem step_extend (st : GState) (e : Ev) : listenersExtend st (step st e) := by
  cases e with
  | endE h =>
    have hf := foldListeners_frame st.listeners st h true 0
    exact listenersExtend_of_eq _ _ hf.2.1 hf.2.2.1.symm
  | statusE h c =>
    have hf := foldListeners_frame st.listeners st h false c
    exact listenersExtend_of_eq _ _ hf.2.1 hf.2.2.1.symm
  | infoData sy => exact deliverInfoData_extend st sy

theorem ptracked_extend (s s2 : GState) (h : Nat) (k : String) (p : Nat)
    (ht : ptracked s h k p) (hx : listenersExtend s s2) : ptracked s2 h k p := by
  refine ⟨Nat.lt_of_lt_of_le ht.1 hx.1, fun l hl hp => ?_⟩
  rcases hx.2 l hl with hl2 | hq
  · exact ht.2 l hl2 hp
  · exact absurd (hq p hp) (Nat.not_le_of_lt ht.1)

theorem ptracked_step (st : GState) (e : Ev) (h : Nat) (k : String) (p : Nat)
    (ht : ptracked st h k p) : ptracked (step st e) h k p :=
  ptracked_extend _ _ _ _ _ ht (step_extend st e)

theorem ptracked_run (st : GState) (evs : List Ev) (h : Nat) (k : String)
    (p : Nat) (ht : ptracked st h k p) : ptracked (run st evs) h k p := by
  induction evs generalizing st with
  | nil => exact ht
  | cons e evs ih => exact ih _ (ptracked_step st e h k p ht)

theorem subscribeKey_resolved (s : GState) (a : String) :
    (subscribeKey s a).resolved = s.resolved := by
  cases hs : lookupKey s.subscriptions a with
  | some h => rw [subscribeKey_of_some s a h hs]
  | none => rw [subscribeKey_of_none s a hs]

theorem foldSub_resolved (ks : List String) (s : GState) :
    (ks.foldl subscribeKey s).resolved = s.resolved := by
  induction ks generalizing s with
  | nil => rfl
  | cons a ks ih => rw [List.foldl_cons, ih, subscribeKey_resolved]

theorem cancelSubscription_resolved (s : GState) (a : String) :
    (cancelSubscription s a).1.resolved = s.resolved := by
  cases hs : lookupKey s.subscriptions a with
  | none => rw [cancelSubscription_of_none s a hs]
  | some h => rw [cancelSubscription_of_some s a h hs]

theorem unsubFold_resolved (ks : List String) :
    ∀ (s : GState) (acc : List (String × Nat × Nat)),
      ((ks.foldl
        (fun acc key =>
          match cancelSubscription acc.1 key with
          | (st2, some hp) => (st2, acc.2 ++ [(key, hp.1, hp.2)])
          | (st2, none) => (st2, acc.2))
        (s, acc)).1).resolved = s.resolved := by
  induction ks with
  | nil =>
    intro s acc
    rfl
  | cons a ks ih =>
    intro s acc
    rw [List.foldl_cons]
    have hr := cancelSubscription_resolved s a
    rcases hcs : cancelSubscription s a with ⟨s2, r⟩
    rw [hcs] at hr
    cases r with
    | some hp =>
      rw [ih s2]
      exact hr
    | none =>
      rw [ih s2]
      exact hr

theorem deliverInfoData_resolved (st : GState) (sy : Bool) :
    (deliverInfoData st sy).resolved = st.resolved := by
  unfold deliverInfoData
  split
  · split
    · exact (unsubFold_resolved _ _ _).trans (foldSub_resolved _ _)
    · rfl
  · rfl

theorem step_resolve_char (st : GState) (h : Nat) (k : String) (p : Nat) (e : Ev)
    (ht : ptracked st h k p) (hnr : p ∉ st.resolved)
    (hres : p ∈ (step st e).resolved) :
    isTermEv h e = true ∧ lookupKey (step st e).subscriptions k = none := by
  cases e with
  | endE h' =>
    have hc := foldListeners_resolve st.listeners h' true 0 h k p st ht.2 hnr hres
    refine ⟨?_, hc.2⟩
    simp [isTermEv, hc.1.1]
  | statusE h' c =>
    have hc := foldListeners_resolve st.listeners h' false c h k p st ht.2 hnr hres
    rcases hc.1.2 with hb | hcc
    · exact absurd hb (by simp)
    · refine ⟨?_, hc.2⟩
      simp [isTermEv, hc.1.1, hcc]
  | infoData sy =>
    rw [show (step st (.infoData sy)).resolved = st.resolved from
      deliverInfoData_resolved st sy] at hres
    exact absurd hres hnr

theorem run_no_resolve (evs : List Ev) (st : GState) (h : Nat) (k : String)
    (p : Nat) (ht : ptracked st h k p) (hnr : p ∉ st.resolved)
    (hterm : ∀ e ∈ evs, isTermEv h e = false) :
    p ∉ (run st evs).resolved := by
  induction evs generalizing st with
  | nil => exact hnr
  | cons e evs ih =>
    have hnr2 : p ∉ (step st e).resolved := by
      intro hmem
      have hchar := step_resolve_char st h k p e ht hnr hmem
      rw [hterm e (List.mem_cons_self _ _)] at hchar
      exact Bool.false_ne_true hchar.1
    exact ih _ (ptracked_step st e h k p ht) hnr2
      (fun e2 he2 => hterm e2 (List.mem_cons_of_mem _ he2))

theorem promisesFresh_spec (st : GState) (hf : promisesFresh st = true) :
    (∀ l ∈ st.listeners, ∀ q, l.promise = some q → q < st.nextPromise)
    ∧ ∀ q ∈ st.resolved, q < st.nextPromise := by
  unfold promisesFresh at hf
  rw [Bool.and_eq_true] at hf
  constructor
  · intro l hl q hq
    have hx := List.all_eq_true.mp hf.1 l hl
    rw [hq] at hx
    simpa using hx
  · intro q hq
    have hx := List.all_eq_true.mp hf.2 q hq
    simpa using hx

theorem run_append (st : GState) (l r : List Ev) :
    run st (l ++ r) = run (run st l) r := by
  unfold run
  rw [List.foldl_append]

/-- C2: the promise returned by `cancelSubscription` on an active key (and
hence each promise created by a no-argument `unsubscribe`, which runs one
cancellation per currently active key — last conjunct — and joins on all of
them with `Promise.all`) resolves only at a terminating event — a `'status'`
event with code `CANCELLED` or an `'end'` event — observed on that key's
stream handle, at which point the key's table entry has been removed; it
never resolves merely because the cancel request was sent (a trace with no
terminating event on the handle leaves the promise pending). -/
theorem c2_cancel_resolves_only_after_termination (st : GState) (key : String)
    (h p : Nat) (st2 : GState)
    (hfresh : promisesFresh st = true)
    (hsome : lookupKey st.subscriptions key = some h)
    (hc : cancelSubscription st key = (st2, some (h, p))) :
    p = st.nextPromise
    ∧ (∀ evs, (∀ e ∈ evs, isTermEv h e = false) →
        p ∉ (run st2 evs).resolved)
    ∧ (∀ evs e, p ∉ (run st2 evs).resolved →
        p ∈ (run st2 (evs ++ [e])).resolved →
        isTermEv h e = true
        ∧ lookupKey (run st2 (evs ++ [e])).subscriptions key = none)
    ∧ (unsubscribe st []).2.map (·.1) = st.subscriptions.map (·.1) := by
  rw [cancelSubscription_of_some st key h hsome] at hc
  obtain ⟨hfl, hfr⟩ := promisesFresh_spec st hfresh
  injection hc with h1 h2
  injection h2 with h2
  injection h2 with h3 h5
  subst h1
  subst h5
  have ht : ptracked { st with
      forwarded := removeForward st.forwarded (subMethod key)
      nextPromise := st.nextPromise + 1
      listeners := st.listeners
        ++ [.cancelStatus h key st.nextPromise, .cancelEnd h key st.nextPromise]
      cancelRequested := st.cancelRequested ++ [h] } h key st.nextPromise := by
    refine ⟨Nat.lt_succ_self _, fun l hl hp => ?_⟩
    replace hl : l ∈ st.listeners
        ++ [Listener.cancelStatus h key st.nextPromise,
            Listener.cancelEnd h key st.nextPromise] := hl
    rw [List.mem_append] at hl
    rcases hl with hl | hl
    · exact absurd (hfl l hl _ hp) (Nat.lt_irrefl _)
    · rcases List.mem_cons.mp hl with rfl | hl2
      · exact ⟨rfl, rfl⟩
      · rcases List.mem_cons.mp hl2 with rfl | hl3
        · exact ⟨rfl, rfl⟩
        · simp at hl3
  have hnr : st.nextPromise ∉ st.resolved :=
    fun hmem => Nat.lt_irrefl _ (hfr _ hmem)
  refine ⟨rfl, ?_, ?_, ?_⟩
  · intro evs hterm
    exact run_no_resolve evs _ h key st.nextPromise ht hnr hterm
  · intro evs e hn hr2
    rw [run_append] at hr2 ⊢
    exact step_resolve_char _ h key st.nextPromise e
      (ptracked_run _ evs h key st.nextPromise ht) hn hr2
  · exact unsubscribe_records st []

/-- Witness for C2 on the concrete post-`subscribeAll` state: cancelling
`invoices` (handle 0, promise 0); events on other handles leave the promise
unresolved, and the `'end'` event on handle 0 resolves it with the `invoices`
entry removed. -/
theorem c2_cancel_witness :
    (0 ∉ (run (cancelSubscription subAllState "invoices").1
        [Ev.statusE 1 CANCELLED, Ev.endE 2]).resolved)
    ∧ (isTermEv 0 (Ev.endE 0) = true
        ∧ lookupKey (run (cancelSubscription subAllState "invoices").1
            ([] ++ [Ev.endE 0])).subscriptions "invoices" = none) :=
  ⟨(c2_cancel_resolves_only_after_termination subAllState "invoices" 0 0
      (cancelSubscription subAllState "invoices").1 (by decide) (by decide)
      (by decide)).2.1 [Ev.statusE 1 CANCELLED, Ev.endE 2] (by decide),
   (c2_cancel_resolves_only_after_termination subAllState "invoices" 0 0
      (cancelSubscription subAllState "invoices").1 (by decide) (by decide)
      (by decide)).2.2.1 [] (Ev.endE 0) (by decide) (by decide)⟩

/-! ### Sync-gating lemmas (claim C3) -/

theorem contains_false_iff (l : List String) (a : String) :
    l.contains a = false ↔ a ∉ l := by
  constructor
  · intro h hm
    rw [(contains_iff_mem l a).mpr hm] at h
    exact Bool.noConfusion h
  · intro hm
    cases hc : l.contains a with
    | false => rfl
    | true => exact absurd ((contains_iff_mem l a).mp hc) hm

theorem removeForward_not_contains (f : List String) (m : String) :
    (removeForward f m).contains m = false := by
  rw [contains_false_iff]
  intro hm
  unfold removeForward at hm
  rw [List.mem_filter] at hm
  have h2 := hm.2
  simp at h2

theorem uniqFirstAux_all_seen (l seen : List String)
    (h : ∀ x ∈ l, x ∈ seen) : uniqFirstAux seen l = [] := by
  induction l with
  | nil => rfl
  | cons a l ih =>
    rw [uniqFirstAux_cons, if_pos (h a (List.mem_cons_self _ _))]
    exact ih (fun x hx => h x (List.mem_cons_of_mem _ hx))

theorem uniqFirst_all_eq (l : List String) (a : String) (hne : l ≠ [])
    (hall : ∀ x ∈ l, x = a) : uniqFirst l = [a] := by
  cases l with
  | nil => exact absurd rfl hne
  | cons b l =>
    have hb : b = a := hall b (List.mem_cons_self _ _)
    subst hb
    unfold uniqFirst
    rw [uniqFirstAux_cons, if_neg (List.not_mem_nil b)]
    rw [uniqFirstAux_all_seen]
    intro x hx
    rw [hall x (List.mem_cons_of_mem _ hx)]
    exact List.mem_cons_self _ _

theorem inter_singleton (xs : List String) (a : String) (ha : a ∈ xs) :
    inter xs [a] = [a] := by
  unfold inter
  apply uniqFirst_all_eq
  · intro hfe
    have : a ∈ xs.filter (fun x => ([a]).contains x) := by
      rw [List.mem_filter]
      exact ⟨ha, by simp⟩
    rw [hfe] at this
    exact List.not_mem_nil a this
  · intro x hx
    rw [List.mem_filter] at hx
    have := (contains_iff_mem _ _).mp hx.2
    simpa using this

theorem subscribe_single (s : GState) (k : String) (hk : k ∈ allSubKeys) :
    subscribe s [k] = subscribeKey s k := by
  unfold subscribe
  have ht : subTargets [k] = [k] := by
    show inter allSubKeys [k] = [k]
    exact inter_singleton _ _ hk
  rw [ht, List.foldl_cons, List.foldl_nil]

theorem unsubscribe_single_live (s : GState) (hi : Nat)
    (hlk : lookupKey s.subscriptions "info" = some hi) :
    (unsubscribe s ["info"]).1 = { s with
      forwarded := removeForward s.forwarded "subscribeGetInfo"
      nextPromise := s.nextPromise + 1
      listeners := s.listeners
        ++ [.cancelStatus hi "info" s.nextPromise,
            .cancelEnd hi "info" s.nextPromise]
      cancelRequested := s.cancelRequested ++ [hi] } := by
  unfold unsubscribe
  have ht : unsubTargets s ["info"] = ["info"] := by
    show inter (s.subscriptions.map (·.1)) ["info"] = ["info"]
    exact inter_singleton _ _ (mem_keys_of_lookup_some _ _ _ hlk)
  rw [ht, List.foldl_cons, List.foldl_nil]
  dsimp only
  rw [cancelSubscription_of_some s "info" hi hlk]
  rfl

theorem deliverInfoData_cases (st : GState) (sy : Bool) :
    (st.gateInstalled = true
     ∧ st.forwarded.contains "subscribeGetInfo" = true
     ∧ sy = true
     ∧ lookupKey st.subscriptions "channelgraph" = none
     ∧ deliverInfoData st sy =
        (unsubscribe
          (subscribe { st with gateTriggers := st.gateTriggers + 1 }
            ["channelgraph"]) ["info"]).1)
    ∨ deliverInfoData st sy = st := by
  unfold deliverInfoData
  split
  · next hcond =>
    split
    · next hcond2 =>
      exact Or.inl ⟨hcond.1, hcond.2, hcond2.1, hcond2.2, rfl⟩
    · exact Or.inr rfl
  · exact Or.inr rfl

theorem subscribeKey_frame (s : GState) (a : String) :
    (subscribeKey s a).nextPromise = s.nextPromise
    ∧ (subscribeKey s a).cancelRequested = s.cancelRequested
    ∧ (subscribeKey s a).gateInstalled = s.gateInstalled
    ∧ (subscribeKey s a).gateTriggers = s.gateTriggers := by
  cases hs : lookupKey s.subscriptions a with
  | some h =>
    rw [subscribeKey_of_some s a h hs]
    exact ⟨rfl, rfl, rfl, rfl⟩
  | none =>
    rw [subscribeKey_of_none s a hs]
    exact ⟨rfl, rfl, rfl, rfl⟩

theorem foldSub_frame (ks : List String) (s : GState) :
    (ks.foldl subscribeKey s).nextPromise = s.nextPromise
    ∧ (ks.foldl subscribeKey s).cancelRequested = s.cancelRequested
    ∧ (ks.foldl subscribeKey s).gateInstalled = s.gateInstalled
    ∧ (ks.foldl subscribeKey s).gateTriggers = s.gateTriggers := by
  induction ks generalizing s with
  | nil => exact ⟨rfl, rfl, rfl, rfl⟩
  | cons a ks ih =>
    rw [List.foldl_cons]
    obtain ⟨f1, f2, f3, f4⟩ := subscribeKey_frame s a
    obtain ⟨g1, g2, g3, g4⟩ := ih (subscribeKey s a)
    exact ⟨g1.trans f1, g2.trans f2, g3.trans f3, g4.trans f4⟩

theorem cancelSubscription_frame (s : GState) (a : String) :
    (cancelSubscription s a).1.calls = s.calls
    ∧ (cancelSubscription s a).1.nextHandle = s.nextHandle
    ∧ (cancelSubscription s a).1.gateInstalled = s.gateInstalled
    ∧ (cancelSubscription s a).1.gateTriggers = s.gateTriggers := by
  cases hs : lookupKey s.subscriptions a with
  | none =>
    rw [cancelSubscription_of_none s a hs]
    exact ⟨rfl, rfl, rfl, rfl⟩
  | some h =>
    rw [cancelSubscription_of_some s a h hs]
    exact ⟨rfl, rfl, rfl, rfl⟩

theorem unsubFold_frame (ks : List String) :
    ∀ (s : GState) (acc : List (String × Nat × Nat)),
      ((ks.foldl
        (fun acc key =>
          match cancelSubscription acc.1 key with
          | (st2, some hp) => (st2, acc.2 ++ [(key, hp.1, hp.2)])
          | (st2, none) => (st2, acc.2))
        (s, acc)).1).subscriptions = s.subscriptions
      ∧ ((ks.foldl
        (fun acc key =>
          match cancelSubscription acc.1 key with
          | (st2, some hp) => (st2, acc.2 ++ [(key, hp.1, hp.2)])
          | (st2, none) => (st2, acc.2))
        (s, acc)).1).calls = s.calls
      ∧ ((ks.foldl
        (fun acc key =>
          match cancelSubscription acc.1 key with
          | (st2, some hp) => (st2, acc.2 ++ [(key, hp.1, hp.2)])
          | (st2, none) => (st2, acc.2))
        (s, acc)).1).gateInstalled = s.gateInstalled
      ∧ ((ks.foldl
        (fun acc key =>
          match cancelSubscription acc.1 key with
          | (st2, some hp) => (st2, acc.2 ++ [(key, hp.1, hp.2)])
          | (st2, none) => (st2, acc.2))
        (s, acc)).1).gateTriggers = s.gateTriggers := by
  induction ks with
  | nil =>
    intro s acc
    exact ⟨rfl, rfl, rfl, rfl⟩
  | cons a ks ih =>
    intro s acc
    rw [List.foldl_cons]
    have hsub := cancelSubscription_subscriptions s a
    have hfr := cancelSubscription_frame s a
    rcases hcs : cancelSubscription s a with ⟨s2, r⟩
    rw [hcs] at hsub hfr
    cases r with
    | some hp =>
      obtain ⟨g1, g2, g3, g4⟩ := ih s2 (acc ++ [(a, hp.1, hp.2)])
      exact ⟨g1.trans hsub, g2.trans hfr.1, g3.trans hfr.2.2.1,
        g4.trans hfr.2.2.2⟩
    | none =>
      obtain ⟨g1, g2, g3, g4⟩ := ih s2 acc
      exact ⟨g1.trans hsub, g2.trans hfr.1, g3.trans hfr.2.2.1,
        g4.trans hfr.2.2.2⟩

theorem gateBody_effects (st : GState) (hi : Nat)
    (hcg : lookupKey st.subscriptions "channelgraph" = none)
    (hinfo : lookupKey st.subscriptions "info" = some hi) :
    ((unsubscribe
        (subscribe { st with gateTriggers := st.gateTriggers + 1 }
          ["channelgraph"]) ["info"]).1).gateTriggers = st.gateTriggers + 1
    ∧ lookupKey ((unsubscribe
        (subscribe { st with gateTriggers := st.gateTriggers + 1 }
          ["channelgraph"]) ["info"]).1).subscriptions "channelgraph"
        = some st.nextHandle
    ∧ ((unsubscribe
        (subscribe { st with gateTriggers := st.gateTriggers + 1 }
          ["channelgraph"]) ["info"]).1).forwarded.contains "subscribeGetInfo"
        = false
    ∧ hi ∈ ((unsubscribe
        (subscribe { st with gateTriggers := st.gateTriggers + 1 }
          ["channelgraph"]) ["info"]).1).cancelRequested
    ∧ ((unsubscribe
        (subscribe { st with gateTriggers := st.gateTriggers + 1 }
          ["channelgraph"]) ["info"]).1).calls
        = st.calls ++ ["subscribeTransactions"]
    ∧ ((unsubscribe
        (subscribe { st with gateTriggers := st.gateTriggers + 1 }
          ["channelgraph"]) ["info"]).1).gateInstalled = st.gateInstalled := by
  rw [subscribe_single _ "channelgraph" (by decide),
    subscribeKey_of_none { st with gateTriggers := st.gateTriggers + 1 }
      "channelgraph" hcg]
  have hlk2 : lookupKey (setKey st.subscriptions "channelgraph" st.nextHandle)
      "info" = some hi := by
    rw [lookupKey_setKey_other _ _ _ _ (by decide)]
    exact hinfo
  rw [unsubscribe_single_live _ hi hlk2]
  refine ⟨rfl, lookupKey_setKey_self _ _ _, removeForward_not_contains _ _,
    List.mem_append_right _ (List.mem_singleton_self _), rfl, rfl⟩

theorem deliverInfoData_fire_eq (st : GState)
    (hg : st.gateInstalled = true)
    (hf : st.forwarded.contains "subscribeGetInfo" = true)
    (hcg : lookupKey st.subscriptions "channelgraph" = none) :
    deliverInfoData st true =
      (unsubscribe
        (subscribe { st with gateTriggers := st.gateTriggers + 1 }
          ["channelgraph"]) ["info"]).1 := by
  unfold deliverInfoData
  rw [if_pos ⟨hg, hf⟩, if_pos ⟨rfl, hcg⟩]

theorem unsubscribe_frame (s : GState) (streams : List String) :
    (unsubscribe s streams).1.subscriptions = s.subscriptions
    ∧ (unsubscribe s streams).1.calls = s.calls
    ∧ (unsubscribe s streams).1.gateInstalled = s.gateInstalled
    ∧ (unsubscribe s streams).1.gateTriggers = s.gateTriggers :=
  unsubFold_frame (unsubTargets s streams) s []

theorem subscribe_frame (s : GState) (streams : List String) :
    (subscribe s streams).nextPromise = s.nextPromise
    ∧ (subscribe s streams).cancelRequested = s.cancelRequested
    ∧ (subscribe s streams).gateInstalled = s.gateInstalled
    ∧ (subscribe s streams).gateTriggers = s.gateTriggers :=
  foldSub_frame (subTargets streams) s

theorem deliverInfoData_gateInstalled (st : GState) (sy : Bool) :
    (deliverInfoData st sy).gateInstalled = st.gateInstalled := by
  rcases deliverInfoData_cases st sy with ⟨_, _, _, _, heq⟩ | heq
  · rw [heq, (unsubscribe_frame _ _).2.2.1, (subscribe_frame _ _).2.2.1]
  · rw [heq]

theorem step_gateInstalled (st : GState) (e : Ev) :
    (step st e).gateInstalled = st.gateInstalled := by
  cases e with
  | endE h =>
    exact (foldListeners_frame st.listeners st h true 0).2.2.2.2.2.2.2.1
  | statusE h c =>
    exact (foldListeners_frame st.listeners st h false c).2.2.2.2.2.2.2.1
  | infoData sy => exact deliverInfoData_gateInstalled st sy

theorem run_gateInstalled (evs : List Ev) (st : GState) :
    (run st evs).gateInstalled = st.gateInstalled := by
  induction evs generalizing st with
  | nil => rfl
  | cons e evs ih => exact (ih _).trans (step_gateInstalled st e)

theorem subscribeKey_calls_mono (s : GState) (a : String) (x : String)
    (hx : x ∈ s.calls) : x ∈ (subscribeKey s a).calls := by
  cases hs : lookupKey s.subscriptions a with
  | some h =>
    rw [subscribeKey_of_some s a h hs]
    exact hx
  | none =>
    rw [subscribeKey_of_none s a hs]
    exact List.mem_append_left _ hx

theorem foldSub_calls_mono (ks : List String) (s : GState) (x : String)
    (hx : x ∈ s.calls) : x ∈ (ks.foldl subscribeKey s).calls := by
  induction ks generalizing s with
  | nil => exact hx
  | cons a ks ih => exact ih _ (subscribeKey_calls_mono s a x hx)

theorem step_calls_mono (st : GState) (e : Ev) (x : String)
    (hx : x ∈ st.calls) : x ∈ (step st e).calls := by
  cases e with
  | endE h =>
    rw [show (step st (Ev.endE h)).calls = st.calls from
      (foldListeners_frame st.listeners st h true 0).2.2.2.2.1]
    exact hx
  | statusE h c =>
    rw [show (step st (Ev.statusE h c)).calls = st.calls from
      (foldListeners_frame st.listeners st h false c).2.2.2.2.1]
    exact hx
  | infoData sy =>
    show x ∈ (deliverInfoData st sy).calls
    rcases deliverInfoData_cases st sy with ⟨_, _, _, _, heq⟩ | heq
    · rw [heq, (unsubscribe_frame _ _).2.1]
      exact foldSub_calls_mono _ _ x hx
    · rw [heq]
      exact hx

theorem run_calls_mono (evs : List Ev) (st : GState) (x : String)
    (hx : x ∈ st.calls) : x ∈ (run st evs).calls := by
  induction evs generalizing st with
  | nil => exact hx
  | cons e evs ih => exact ih _ (step_calls_mono st e x hx)

theorem step_calls_new (st : GState) (e : Ev) (x : String)
    (hnew : x ∈ (step st e).calls) (hold : x ∉ st.calls) :
    ∃ sy, e = Ev.infoData sy
      ∧ st.gateInstalled = true
      ∧ st.forwarded.contains "subscribeGetInfo" = true
      ∧ sy = true
      ∧ lookupKey st.subscriptions "channelgraph" = none := by
  cases e with
  | endE h =>
    rw [show (step st (Ev.endE h)).calls = st.calls from
      (foldListeners_frame st.listeners st h true 0).2.2.2.2.1] at hnew
    exact absurd hnew hold
  | statusE h c =>
    rw [show (step st (Ev.statusE h c)).calls = st.calls from
      (foldListeners_frame st.listeners st h false c).2.2.2.2.1] at hnew
    exact absurd hnew hold
  | infoData sy =>
    rcases deliverInfoData_cases st sy with ⟨h1, h2, h3, h4, heq⟩ | heq
    · exact ⟨sy, rfl, h1, h2, h3, h4⟩
    · rw [show (step st (Ev.infoData sy)).calls = st.calls from by
        show (deliverInfoData st sy).calls = st.calls
        rw [heq]] at hnew
      exact absurd hnew hold

theorem validSeq_append (st : GState) (l r : List Ev) :
    validSeq st (l ++ r) = (validSeq st l && validSeq (run st l) r) := by
  induction l generalizing st with
  | nil => simp [validSeq, run]
  | cons e l ih =>
    show validSeq st (e :: (l ++ r)) = _
    simp only [validSeq]
    rw [ih (step st e), ← Bool.and_assoc]
    rfl

theorem inv_step (st : GState) (e : Ev)
    (hv : okEv st e = true)
    (h1 : st.gateTriggers ≤ 1)
    (h2 : st.gateTriggers = 1 →
      st.forwarded.contains "subscribeGetInfo" = false) :
    (step st e).gateTriggers ≤ 1
    ∧ ((step st e).gateTriggers = 1 →
        (step st e).forwarded.contains "subscribeGetInfo" = false) := by
  cases e with
  | endE h =>
    have hf := foldListeners_frame st.listeners st h true 0
    rw [show (step st (Ev.endE h)).gateTriggers = st.gateTriggers from
        hf.2.2.2.2.2.2.2.2,
      show (step st (Ev.endE h)).forwarded = st.forwarded from hf.1]
    exact ⟨h1, h2⟩
  | statusE h c =>
    have hf := foldListeners_frame st.listeners st h false c
    rw [show (step st (Ev.statusE h c)).gateTriggers = st.gateTriggers from
        hf.2.2.2.2.2.2.2.2,
      show (step st (Ev.statusE h c)).forwarded = st.forwarded from hf.1]
    exact ⟨h1, h2⟩
  | infoData sy =>
    show (deliverInfoData st sy).gateTriggers ≤ 1
      ∧ ((deliverInfoData st sy).gateTriggers = 1 →
          (deliverInfoData st sy).forwarded.contains "subscribeGetInfo" = false)
    rcases deliverInfoData_cases st sy with ⟨hg, hc, hsy, hcg, heq⟩ | heq
    · obtain ⟨hi, hinfo⟩ := Option.isSome_iff_exists.mp hv
      obtain ⟨g1, g2, g3, g4, g5, g6⟩ := gateBody_effects st hi hcg hinfo
      rw [heq, g1]
      have h0 : st.gateTriggers = 0 := by
        rcases Nat.eq_or_lt_of_le h1 with heq1 | hlt
        · rw [h2 heq1] at hc
          exact Bool.noConfusion hc
        · omega
      exact ⟨by omega, fun _ => g3⟩
    · rw [heq]
      exact ⟨h1, h2⟩

theorem inv_run (evs : List Ev) (st : GState)
    (hv : validSeq st evs = true)
    (h1 : st.gateTriggers ≤ 1)
    (h2 : st.gateTriggers = 1 →
      st.forwarded.contains "subscribeGetInfo" = false) :
    (run st evs).gateTriggers ≤ 1
    ∧ ((run st evs).gateTriggers = 1 →
        (run st evs).forwarded.contains "subscribeGetInfo" = false) := by
  induction evs generalizing st with
  | nil => exact ⟨h1, h2⟩
  | cons e evs ih =>
    simp only [validSeq, Bool.and_eq_true] at hv
    obtain ⟨hinv1, hinv2⟩ := inv_step st e hv.1 h1 h2
    exact ih _ hv.2 hinv1 hinv2

theorem calls_new_decomp (evs : List Ev) :
    validSeq subAllState evs = true →
    "subscribeTransactions" ∈ (run subAllState evs).calls →
    ∃ l r, evs = l ++ Ev.infoData true :: r
      ∧ (run subAllState l).forwarded.contains "subscribeGetInfo" = true
      ∧ lookupKey (run subAllState l).subscriptions "channelgraph" = none := by
  induction evs using List.reverseRecOn with
  | nil =>
    intro _ hmem
    exact absurd hmem (by decide)
  | append_singleton evs e ih =>
    intro hv hmem
    rw [validSeq_append, Bool.and_eq_true] at hv
    by_cases hold : "subscribeTransactions" ∈ (run subAllState evs).calls
    · obtain ⟨l, r, hdec, hfw, hcg⟩ := ih hv.1 hold
      refine ⟨l, r ++ [e], ?_, hfw, hcg⟩
      rw [hdec, List.append_assoc]
      rfl
    · rw [run_append] at hmem
      obtain ⟨sy, rfl, _hg, hfw, hsy, hcg⟩ :=
        step_calls_new (run subAllState evs) e _ hmem hold
      subst hsy
      exact ⟨evs, [], rfl, hfw, hcg⟩

/-- C3: on the subscribe-all path, (i) the sync-gating rule triggers at most
once along any physically possible event sequence; (ii) the channel-graph
subscription is started — its (swapped) streaming method invoked — if and
only if an info-subscription data event with `synced_to_chain = true` is
observed (the info stream still forwarded to the bus) while the
channel-graph key is not active; and (iii) immediately after such a firing
step the channel-graph entry is in the table and the info subscription is
unsubscribed: its method is no longer forwarded and the cancel request has
been issued on its stream handle. -/
theorem c3_sync_gated_channelgraph (evs : List Ev)
    (hv : validSeq subAllState evs = true) :
    (run subAllState evs).gateTriggers ≤ 1
    ∧ ("subscribeTransactions" ∈ (run subAllState evs).calls ↔
        ∃ l r, evs = l ++ Ev.infoData true :: r
          ∧ (run subAllState l).forwarded.contains "subscribeGetInfo" = true
          ∧ lookupKey (run subAllState l).subscriptions "channelgraph" = none)
    ∧ (∀ l hi,
        (run subAllState l).forwarded.contains "subscribeGetInfo" = true →
        lookupKey (run subAllState l).subscriptions "channelgraph" = none →
        lookupKey (run subAllState l).subscriptions "info" = some hi →
        lookupKey (step (run subAllState l)
            (Ev.infoData true)).subscriptions "channelgraph"
          = some (run subAllState l).nextHandle
        ∧ (step (run subAllState l) (Ev.infoData true)).forwarded.contains
            "subscribeGetInfo" = false
        ∧ hi ∈ (step (run subAllState l) (Ev.infoData true)).cancelRequested
        ∧ (step (run subAllState l) (Ev.infoData true)).calls
          = (run subAllState l).calls ++ ["subscribeTransactions"]) := by
  refine ⟨(inv_run evs subAllState hv (by decide) (by decide)).1, ?_, ?_⟩
  · constructor
    · exact calls_new_decomp evs hv
    · rintro ⟨l, r, rfl, hfw, hcg⟩
      rw [validSeq_append, Bool.and_eq_true] at hv
      have hok : okEv (run subAllState l) (Ev.infoData true) = true := by
        have h2 := hv.2
        simp only [validSeq, Bool.and_eq_true] at h2
        exact h2.1
      obtain ⟨hi, hinfo⟩ := Option.isSome_iff_exists.mp hok
      have hg : (run subAllState l).gateInstalled = true :=
        (run_gateInstalled l subAllState).trans (by decide)
      have hfire := deliverInfoData_fire_eq (run subAllState l) hg hfw hcg
      obtain ⟨g1, g2, g3, g4, g5, g6⟩ :=
        gateBody_effects (run subAllState l) hi hcg hinfo
      rw [run_append]
      show "subscribeTransactions"
        ∈ (run (step (run subAllState l) (Ev.infoData true)) r).calls
      apply run_calls_mono
      show "subscribeTransactions"
        ∈ (deliverInfoData (run subAllState l) true).calls
      rw [hfire, g5]
      exact List.mem_append_right _ (List.mem_singleton_self _)
  · intro l hi hfw hcg hinfo
    have hg : (run subAllState l).gateInstalled = true :=
      (run_gateInstalled l subAllState).trans (by decide)
    have hfire := deliverInfoData_fire_eq (run subAllState l) hg hfw hcg
    obtain ⟨g1, g2, g3, g4, g5, g6⟩ :=
      gateBody_effects (run subAllState l) hi hcg hinfo
    refine ⟨?_, ?_, ?_, ?_⟩
    · show lookupKey (deliverInfoData
          (run subAllState l) true).subscriptions "channelgraph" = _
      rw [hfire]
      exact g2
    · show (deliverInfoData (run subAllState l) true).forwarded.contains
          "subscribeGetInfo" = false
      rw [hfire]
      exact g3
    · show hi ∈ (deliverInfoData (run subAllState l) true).cancelRequested
      rw [hfire]
      exact g4
    · show (deliverInfoData (run subAllState l) true).calls = _
      rw [hfire]
      exact g5

/-- Witness for C3 on the concrete one-event trace: the first synced info
data event starts the channel-graph stream (handle 3) and unsubscribes info
(cancel requested on handle 2). -/
theorem c3_sync_gated_witness :
    (run subAllState [Ev.infoData true]).gateTriggers ≤ 1
    ∧ "subscribeTransactions" ∈ (run subAllState [Ev.infoData true]).calls
    ∧ lookupKey (step (run subAllState []) (Ev.infoData true)).subscriptions
        "channelgraph" = some (run subAllState []).nextHandle
    ∧ (step (run subAllState []) (Ev.infoData true)).forwarded.contains
        "subscribeGetInfo" = false
    ∧ 2 ∈ (step (run subAllState []) (Ev.infoData true)).cancelRequested :=
  ⟨(c3_sync_gated_channelgraph [Ev.infoData true] (by decide)).1,
   (c3_sync_gated_channelgraph [Ev.infoData true] (by decide)).2.1.mpr
     ⟨[], [], rfl, by decide, by decide⟩,
   ((c3_sync_gated_channelgraph [Ev.infoData true] (by decide)).2.2 [] 2
     (by decide) (by decide) (by decide)).1,
   ((c3_sync_gated_channelgraph [Ev.infoData true] (by decide)).2.2 [] 2
     (by decide) (by decide) (by decide)).2.1,
   ((c3_sync_gated_channelgraph [Ev.infoData true] (by decide)).2.2 [] 2
     (by decide) (by decide) (by decide)).2.2.1⟩

/-- C1: `subscribe` targets the full known key set when called with no keys
and otherwise the intersection of the known keys with the supplied keys
(unknown keys dropped, duplicates collapsed); each targeted key that is
already in the table is left untouched and a warning is logged; each other
targeted key receives exactly one new table entry with a freshly allocated
stream handle; non-targeted keys are untouched. -/
theorem c1_subscribe_resolution_and_effects (st : GState) (streams : List String)
    (hnd : keysNodup st) :
    (∀ k, k ∈ subTargets streams ↔
      k ∈ allSubKeys ∧ (streams = [] ∨ k ∈ streams))
    ∧ (subTargets streams).Nodup
    ∧ (∀ k h, k ∈ subTargets streams →
        lookupKey st.subscriptions k = some h →
        lookupKey (subscribe st streams).subscriptions k = some h
        ∧ ("already active: " ++ k) ∈ (subscribe st streams).warnings)
    ∧ (∀ k, k ∈ subTargets streams →
        lookupKey st.subscriptions k = none →
        ∃ h, lookupKey (subscribe st streams).subscriptions k = some h
          ∧ st.nextHandle ≤ h
          ∧ ((subscribe st streams).subscriptions.map (·.1)).count k = 1)
    ∧ (∀ k, k ∉ subTargets streams →
        lookupKey (subscribe st streams).subscriptions k
          = lookupKey st.subscriptions k) := by
  refine ⟨subTargets_mem streams, subTargets_nodup streams, ?_, ?_, ?_⟩
  · intro k h hk hs
    exact foldSub_active _ st k h (subTargets_nodup streams) hk hs
  · intro k hk hs
    obtain ⟨h, hh, hle⟩ := foldSub_new _ st k (subTargets_nodup streams) hk hs
    refine ⟨h, hh, hle, ?_⟩
    exact count_keys_eq_one _ k h (foldSub_keysNodup _ st hnd) hh
  · intro k hk
    exact foldSub_lookup_not_mem _ st k hk

/-- Witness for C1 on a fresh instance with a duplicated key, an unknown key
and, after the first subscribe, an already-active key. -/
theorem c1_subscribe_witness :
    keysNodup detachS1
    ∧ ("invoices" ∈ subTargets ["invoices", "invoices", "bogus"] ↔
        "invoices" ∈ allSubKeys
        ∧ (["invoices", "invoices", "bogus"] = ([] : List String)
           ∨ "invoices" ∈ ["invoices", "invoices", "bogus"]))
    ∧ (∃ h,
        lookupKey (subscribe initG ["invoices", "invoices", "bogus"]).subscriptions
          "invoices" = some h
        ∧ initG.nextHandle ≤ h
        ∧ ((subscribe initG ["invoices", "invoices", "bogus"]).subscriptions.map
            (·.1)).count "invoices" = 1)
    ∧ (lookupKey (subscribe detachS1 ["invoices"]).subscriptions "invoices" = some 0
        ∧ ("already active: " ++ "invoices")
            ∈ (subscribe detachS1 ["invoices"]).warnings) :=
  ⟨by unfold keysNodup; decide,
   (c1_subscribe_resolution_and_effects initG
      ["invoices", "invoices", "bogus"] (by unfold keysNodup; decide)).1 "invoices",
   (c1_subscribe_resolution_and_effects initG
      ["invoices", "invoices", "bogus"] (by unfold keysNodup; decide)).2.2.2.1 "invoices"
      (by decide) (by decide),
   (c1_subscribe_resolution_and_effects detachS1 ["invoices"]
      (by unfold keysNodup; decide)).2.2.1
      "invoices" 0 (by decide) (by decide)⟩

/-- `alreadyConnected` holds exactly when a transport handle exists in a
phase other than the disconnected phase `'ready'`. -/
theorem alreadyConnected_iff (m : ZapModel) :
    alreadyConnected m = true ↔ ∃ g, m.grpc = some g ∧ g.state ≠ "ready" := by
  unfold alreadyConnected
  cases hg : m.grpc with
  | none => simp
  | some g => simp [bne_iff_ne]

/-- C9: in the fixed `SUBSCRIPTIONS` map, the key `transactions` is bound to
the channel-graph streaming method name `subscribeChannelGraph` and the key
`channelgraph` to the transactions streaming method name
`subscribeTransactions`, so `subscribe` on those keys invokes the swapped
remote streaming method. -/
theorem c9_subscriptions_map_swapped :
    subMethod "transactions" = "subscribeChannelGraph"
    ∧ subMethod "channelgraph" = "subscribeTransactions"
    ∧ (subscribe initG ["transactions"]).calls = ["subscribeChannelGraph"]
    ∧ (subscribe initG ["channelgraph"]).calls = ["subscribeTransactions"] := by
  refine ⟨rfl, rfl, ?_, ?_⟩ <;> decide

/-- C4 (code evaluated at the claim's failing input): on a freshly
constructed instance carrying `type = "local"`, `id ≠ "tmp"` options —
exactly the state `getConnectionSettings` sees when `connect` calls it —
`useMacaroon` evaluates to `undefined` (the instance field
`this.useMacaroon` is assigned nowhere in the class), not `true` as the
claim states; with `id = "tmp"` it is likewise `undefined`, not `false`.
`waitForMacaroon` and `waitForCert` are `true` as claimed. -/
theorem c4_useMacaroon_never_true :
    (getConnectionSettings { initModel with options := localOptions }).useMacaroon = none
    ∧ (getConnectionSettings { initModel with options := localOptions }).useMacaroon ≠ some true
    ∧ (getConnectionSettings { initModel with options := tmpOptions }).useMacaroon = none
    ∧ (getConnectionSettings { initModel with options := tmpOptions }).useMacaroon ≠ some false
    ∧ (getConnectionSettings { initModel with options := localOptions }).waitForMacaroon = true
    ∧ (getConnectionSettings { initModel with options := localOptions }).waitForCert = true := by
  refine ⟨rfl, ?_, rfl, ?_, rfl, rfl⟩ <;> decide

/-- C5: `connect(options)` raises the "already connected" error exactly when
a transport handle exists in a phase other than the disconnected `'ready'`
phase (the check runs before any mutation, so a failed call has no side
effects in the embedding); otherwise it stores the options, builds a fresh
transport handle and installs the service registry. -/
theorem c5_connect_already_connected_guard (m : ZapModel) (opts : ConnOptions) :
    ((∃ e, connect m opts = Except.error e) ↔
      ∃ g, m.grpc = some g ∧ g.state ≠ "ready")
    ∧ (∀ e, connect m opts = Except.error e →
        e = "Can not connect (already connected)")
    ∧ (∀ m2, connect m opts = Except.ok m2 →
        m2.options = opts ∧ m2.services = true
        ∧ m2.grpc = some { state := "ready", canDisconnect := false }) := by
  rw [← alreadyConnected_iff]
  unfold connect
  by_cases h : alreadyConnected m = true <;> simp [h]

/-- Witness for C5 at a concrete live connection and a concrete fresh
instance. -/
theorem c5_connect_guard_witness :
    (∃ e, connect liveModel localOptions = Except.error e)
    ∧ ∀ m2, connect initModel localOptions = Except.ok m2 →
        m2.options = localOptions :=
  ⟨(c5_connect_already_connected_guard liveModel localOptions).1.mpr
    ⟨{ state := "active", canDisconnect := true }, rfl, by decide⟩,
   fun m2 h =>
    ((c5_connect_already_connected_guard initModel localOptions).2.2 m2 h).1⟩

/-- C6 counterexample: a disconnect whose graceful transport teardown throws
rejects before the `Object.assign(this, INITIAL_STATE)` line runs (there is
no try/catch around the `await`), so the registries are NOT reset to their
initial empty shape: the subscriptions table still holds its entry and the
service registry is still installed. -/
theorem c6_failed_teardown_counterexample :
    (disconnect liveModel true).2 = true
    ∧ (disconnect liveModel true).1.subscriptions = [("invoices", 0)]
    ∧ (disconnect liveModel true).1.subscriptions ≠ []
    ∧ (disconnect liveModel true).1.services = true := by
  refine ⟨rfl, rfl, ?_, rfl⟩
  decide

/-- C6 amended: `disconnect()` with no live connection returns without error
and leaves the registries at the initial empty shape; every disconnect that
returns without throwing resets the registries; but when the graceful
transport teardown throws, the error propagates and the registries are left
untouched. -/
theorem c6_disconnect_reset_amended (m : ZapModel) (b : Bool) :
    (m.grpc = none → disconnect m b = (resetState m, false))
    ∧ ((disconnect m b).2 = false →
        (disconnect m b).1.options = emptyOptions
        ∧ (disconnect m b).1.services = false
        ∧ (disconnect m b).1.subscriptions = [])
    ∧ ((disconnect m b).2 = true → (disconnect m b).1 = m)
    ∧ disconnect initModel b = (initModel, false) := by
  refine ⟨?_, ?_, ?_, rfl⟩ <;>
  · cases hg : m.grpc with
    | none => simp [disconnect, hg, resetState]
    | some g =>
      cases hcd : g.canDisconnect <;> cases b <;>
        simp [disconnect, hg, hcd, resetState]

/-- Witness for C6 amended: a no-connection disconnect is a clean reset, and
the concrete failing disconnect from the counterexample leaves the state
untouched. -/
theorem c6_disconnect_reset_amended_witness :
    disconnect initModel false = (resetState initModel, false)
    ∧ (disconnect liveModel true).1 = liveModel :=
  ⟨(c6_disconnect_reset_amended initModel false).1 rfl,
   (c6_disconnect_reset_amended liveModel true).2.2.1 rfl⟩

/-- C10: `INITIAL_STATE` has no `grpc` key, so `disconnect` resets only the
`options`, `services` and `subscriptions` registries and the transport-handle
field keeps referencing the previous transport; a subsequent `connect`
decides its "already connected" check against that stale handle's state. -/
theorem c10_disconnect_keeps_grpc_handle (m : ZapModel) (b : Bool)
    (opts : ConnOptions) :
    (disconnect m b).1.grpc = m.grpc
    ∧ resetState m = { m with
        options := emptyOptions, services := false, subscriptions := [] }
    ∧ ((∃ e, connect (disconnect m b).1 opts = Except.error e) ↔
        ∃ g, m.grpc = some g ∧ g.state ≠ "ready") := by
  have hg : (disconnect m b).1.grpc = m.grpc := by
    cases hgr : m.grpc with
    | none => simp [disconnect, hgr, resetState]
    | some g =>
      cases hcd : g.canDisconnect <;> cases b <;>
        simp [disconnect, hgr, hcd, resetState]
  refine ⟨hg, rfl, ?_⟩
  rw [(c5_connect_already_connected_guard (disconnect m b).1 opts).1, hg]

end ZapGrpc
